import Mathlib

/-!
Verification of the wafer-insight-analyzer core parsing/validation logic.

Shallow embedding conventions:
* a JS `ArrayBuffer`/`Uint8Array` is a `List ℕ` of byte values;
* JS numbers are modelled as `ℕ`/`ℤ` where the source only holds integers and
  as `ℚ` where fractional values flow (division `q / 0` is `0` in `ℚ`;
  every theorem that could touch that convention is guarded accordingly);
* `Math.random()` is an explicit stream `rng : ℕ → ℚ` consumed left to right
  with a threaded counter;
* a `DataView` read that would go out of bounds returns `none`
  (the JS exception), and the surrounding `try`/`catch` structure of the
  source is reproduced at each call site;
* `Math.sqrt` (used only for the derived `stdDev` statistic) is an explicit
  function parameter `sqrtFn`, since no claim concerns its value.
-/

set_option autoImplicit false

namespace WaferInsight

/-! ## DataView reads over a byte buffer -/

/-- `view.getUint8(i)`: `none` models the JS `RangeError`. -/
def getUint8 (buf : List ℕ) (i : ℕ) : Option ℕ := buf[i]?

/-- `view.getUint16(i, false)`: big-endian 16-bit read. -/
def getUint16BE (buf : List ℕ) (i : ℕ) : Option ℕ := do
  let hi ← buf[i]?
  let lo ← buf[i+1]?
  pure (hi * 256 + lo)

/-- `view.getUint16(i, true)`: little-endian 16-bit read. -/
def getUint16LE (buf : List ℕ) (i : ℕ) : Option ℕ := do
  let lo ← buf[i]?
  let hi ← buf[i+1]?
  pure (lo + hi * 256)

/-- `view.getUint32(i, true)`: little-endian 32-bit read. -/
def getUint32LE (buf : List ℕ) (i : ℕ) : Option ℕ := do
  let b0 ← buf[i]?
  let b1 ← buf[i+1]?
  let b2 ← buf[i+2]?
  let b3 ← buf[i+3]?
  pure (b0 + b1 * 256 + b2 * 65536 + b3 * 16777216)

/-- `view.getInt16(i, true)`: little-endian signed 16-bit read. -/
def getInt16LE (buf : List ℕ) (i : ℕ) : Option ℤ := do
  let u ← getUint16LE buf i
  pure (if u < 32768 then (u : ℤ) else (u : ℤ) - 65536)

/-! ## RecordStream scanner (`StdfParser.parseStdfBuffer`, first parser) -/

/-- One structural record as pushed by `parseStdfBuffer`. -/
structure RawRecord where
  type : ℕ
  subType : ℕ
  length : ℕ
  data : List ℕ
  offset : ℕ
  deriving DecidableEq, Repr

/-- Cursor state of the main scanning loop. -/
structure ScanState where
  offset : ℕ
  records : List RawRecord
  parseErrors : ℕ
  recoveredRecords : ℕ
  deriving DecidableEq, Repr

/-- `StdfParser.MAX_RECORD_LENGTH`. -/
def MAX_RECORD_LENGTH : ℕ := 65535

/--
`StdfParser.findNextValidRecord(view, startOffset, maxOffset)`, inner loop:
scan forward from `offset` while `offset < maxOffset - 4`, looking for a
plausible record header; a read failure is caught and the search continues.
The `fuel` argument makes the recursion structural; any fuel at least
`maxOffset - offset` computes the source loop exactly, since the loop both
bails out once `offset + 4 < maxOffset` fails and advances `offset` by one
each pass.
-/
def findNextAux (buf : List ℕ) (maxOffset startOffset : ℕ) : ℕ → ℕ → ℕ
  | 0, _offset => startOffset
  | fuel + 1, offset =>
    if offset + 4 < maxOffset then
      match getUint16BE buf offset, getUint8 buf (offset + 2), getUint8 buf (offset + 3) with
      | some recordLength, some recordType, some recordSubType =>
        if 0 < recordLength ∧ recordLength ≤ MAX_RECORD_LENGTH ∧
            recordType ≤ 255 ∧ recordSubType ≤ 255 ∧
            offset + 4 + recordLength ≤ maxOffset then
          offset
        else
          findNextAux buf maxOffset startOffset fuel (offset + 1)
      | _, _, _ => findNextAux buf maxOffset startOffset fuel (offset + 1)
    else
      startOffset

/-- `StdfParser.findNextValidRecord`: returns `startOffset` when no plausible
header is found before `maxOffset - 4`. -/
def findNextValidRecord (buf : List ℕ) (startOffset maxOffset : ℕ) : ℕ :=
  findNextAux buf maxOffset startOffset maxOffset startOffset

/-- Outcome of one iteration of the scanning loop. -/
inductive ScanIterResult where
  | next (s : ScanState)
  | done (s : ScanState)
  deriving DecidableEq, Repr

/--
One iteration body of the `while` loop in `parseStdfBuffer` (entered only
when `offset < byteLength - 4 && parseErrors < maxErrors`).  The read of the
header is always in bounds under the loop guard, but the source wraps it in
`try`/`catch`; the `catch` arm (recovery via `findNextValidRecord`,
else advance by 4) is reproduced for the `none` case.
-/
def scanIter (buf : List ℕ) (s : ScanState) : ScanIterResult :=
  if buf.length < s.offset + 4 then
    .done s
  else
    match getUint16BE buf s.offset, getUint8 buf (s.offset + 2), getUint8 buf (s.offset + 3) with
    | some recordLength, some recordType, some recordSubType =>
      if MAX_RECORD_LENGTH < recordLength then
        .next { s with
          offset := findNextValidRecord buf (s.offset + 1) buf.length,
          parseErrors := s.parseErrors + 1 }
      else if recordLength = 0 then
        .next { s with offset := s.offset + 4 }
      else if buf.length < s.offset + 4 + recordLength then
        .done s
      else
        .next { s with
          offset := s.offset + 4 + recordLength,
          records := s.records ++
            [⟨recordType, recordSubType, recordLength,
              (buf.drop (s.offset + 4)).take recordLength, s.offset⟩] }
    | _, _, _ =>
      -- `catch` arm: `nextOffset = findNextValidRecord(view, offset + 1, byteLength)`
      if s.offset < findNextValidRecord buf (s.offset + 1) buf.length then
        .next { s with offset := findNextValidRecord buf (s.offset + 1) buf.length,
                       recoveredRecords := s.recoveredRecords + 1,
                       parseErrors := s.parseErrors + 1 }
      else
        .next { s with offset := s.offset + 4, parseErrors := s.parseErrors + 1 }

/--
The main `while` loop of `StdfParser.parseStdfBuffer`: runs while
`offset < byteLength - 4 && parseErrors < maxErrors`.  The structural `fuel`
argument is adequate whenever it is at least `buf.length - s.offset`, because
the cursor strictly increases each pass (`scanIter_next_offset_lt`); adequacy
is proved in `scanLoopF_fuel_adequate`.
-/
def scanLoopF (buf : List ℕ) (maxErrors : ℕ) : ℕ → ScanState → ScanState
  | 0, s => s
  | fuel + 1, s =>
    if s.offset + 4 < buf.length ∧ s.parseErrors < maxErrors then
      match scanIter buf s with
      | .next s' => scanLoopF buf maxErrors fuel s'
      | .done s' => s'
    else s

/-- The scanner loop, run with adequate fuel. -/
def scanLoop (buf : List ℕ) (maxErrors : ℕ) (s : ScanState) : ScanState :=
  scanLoopF buf maxErrors (buf.length - s.offset) s

/-- `maxErrors` bound of `parseStdfBuffer`:
`Math.max(100, Math.floor(buffer.byteLength / 10000))`. -/
def scanMaxErrors (buf : List ℕ) : ℕ := max 100 (buf.length / 10000)

/-- The scanning phase of `parseStdfBuffer`, from a fresh state. -/
def parseStdfBufferScan (buf : List ℕ) : ScanState :=
  scanLoop buf (scanMaxErrors buf) ⟨0, [], 0, 0⟩

/-! ## Aggregation (`StdfParser.extractStdfData`, first parser)

`Math.random()` is an explicit stream `rng : ℕ → ℚ` with a threaded index,
consumed in source evaluation order. -/

/-- One named test entry of a part (`result: 'P' | 'F'` as a Bool). -/
structure TestEntry where
  value : ℚ
  result : Bool
  units : String
  deriving DecidableEq, Repr

/-- `StdfTestResult` of the first parser. -/
structure StdfTestResult where
  partId : String
  x : ℤ
  y : ℤ
  hardBin : ℤ
  softBin : ℤ
  siteNumber : ℤ
  testResults : List (String × TestEntry)
  deriving DecidableEq, Repr

/-- One entry of `binSummary` (`binCounts` in the source). -/
structure BinInfo where
  count : ℤ
  description : String
  deriving DecidableEq, Repr

/-- `summary` block of `ParsedStdfData`. -/
structure StdfSummary where
  totalParts : ℕ
  passParts : ℕ
  failParts : ℕ
  yieldPercentage : ℚ
  testNames : List String
  deriving DecidableEq, Repr

/-- One entry of `testSummary`. -/
structure TestStat where
  min : ℚ
  max : ℚ
  mean : ℚ
  stdDev : ℚ
  count : ℕ
  deriving DecidableEq, Repr

/-- `StdfHeader` of the first parser (`testTime` kept as an opaque string:
`new Date().toISOString()` is supplied as the parameter `now`). -/
structure StdfHeader where
  fileVersion : String
  lotId : String
  partType : String
  testProgram : String
  testTime : String
  operatorId : String
  testTemperature : ℤ
  deriving DecidableEq, Repr

/-- `StdfWaferInfo` of the first parser. -/
structure StdfWaferInfo where
  waferId : String
  waferX : ℤ
  waferY : ℤ
  waferUnits : String
  flatDirection : String
  centerX : ℤ
  centerY : ℤ
  deriving DecidableEq, Repr

/-- `ParsedStdfData` of the first parser.  Note: the interface has NO
degraded/unreliable flag of any kind — this is load-bearing for claim C1. -/
structure ParsedStdfData where
  header : StdfHeader
  waferInfo : Option StdfWaferInfo
  parts : List StdfTestResult
  summary : StdfSummary
  binSummary : List (ℤ × BinInfo)
  testSummary : List (String × TestStat)
  deriving DecidableEq, Repr

/-- Characters matched by `[A-Z0-9]`. -/
def isUpperDigit (c : Char) : Bool :=
  ('A' ≤ c && c ≤ 'Z') || ('0' ≤ c && c ≤ '9')

/-- Characters matched by `[A-Z]`. -/
def isUpperAZ (c : Char) : Bool := 'A' ≤ c && c ≤ 'Z'

/-- Characters matched by `\d`. -/
def isDigitChar (c : Char) : Bool := '0' ≤ c && c ≤ '9'

/-- JS `\s` for the ASCII range: space, tab, and the line/page separators.
(The Unicode space classes of JS `\s` are not modelled.) -/
def isJsWs (c : Char) : Bool :=
  c = ' ' || c = '\t' || c = '\n' || c = '\r' ||
    c = Char.ofNat 11 || c = Char.ofNat 12

/-- `String.prototype.trim` on character lists. -/
def jsTrim (cs : List Char) : List Char :=
  ((cs.dropWhile isJsWs).reverse.dropWhile isJsWs).reverse

/-- Substring test (`String.prototype.includes`) on character lists. -/
def containsSub : List Char → List Char → Bool
  | _, [] => true
  | [], _ :: _ => false
  | c :: cs, sub => (sub.isPrefixOf (c :: cs)) || containsSub cs sub

/-- Try the regex `([A-Z0-9]+[-_][A-Z0-9]+)` anchored at the head of `cs`.
The two character classes are disjoint from `[-_]`, so the backtracking
engine succeeds here exactly when the maximal `[A-Z0-9]` run is non-empty,
is followed by a separator, and then by a non-empty second run. -/
def lotPatternAt (cs : List Char) : Option (List Char) :=
  let r1 := cs.takeWhile isUpperDigit
  if r1.length = 0 then none
  else
    match cs.drop r1.length with
    | [] => none
    | sep :: rest =>
      if sep = '-' || sep = '_' then
        let r2 := rest.takeWhile isUpperDigit
        if r2.length = 0 then none else some (r1 ++ sep :: r2)
      else none

/-- Try the regex `([A-Z]\d+[A-Z]+)` anchored at the head of `cs`. -/
def partPatternAt (cs : List Char) : Option (List Char) :=
  match cs with
  | [] => none
  | c :: rest =>
    if isUpperAZ c then
      let ds := rest.takeWhile isDigitChar
      if ds.length = 0 then none
      else
        let ls := (rest.drop ds.length).takeWhile isUpperAZ
        if ls.length = 0 then none else some (c :: (ds ++ ls))
    else none

/-- Try the regex `W[A-Z0-9]+\d+[-_][A-Z]\d+` anchored at the head of `cs`.
Since `[-_]` is disjoint from `[A-Z0-9]`, the `[A-Z0-9]+\d+` part matches
exactly the maximal alphanumeric run, which must end in a digit. -/
def waferPatternAt (cs : List Char) : Option (List Char) :=
  match cs with
  | [] => none
  | c :: rest =>
    if c = 'W' then
      let run := rest.takeWhile isUpperDigit
      if 2 ≤ run.length && isDigitChar (run.getLastD 'A') then
        match rest.drop run.length with
        | sep :: l :: after =>
          if (sep = '-' || sep = '_') && isUpperAZ l then
            let ds := after.takeWhile isDigitChar
            if ds.length = 0 then none
            else some (c :: run ++ sep :: l :: ds)
          else none
        | _ => none
      else none
    else none

/-- Leftmost match of an anchored matcher, as in `String.prototype.match`. -/
def findFirstMatch (matchAt : List Char → Option (List Char)) :
    List Char → Option (List Char)
  | [] => none
  | c :: cs =>
    match matchAt (c :: cs) with
    | some m => some m
    | none => findFirstMatch matchAt cs

/-- `StdfParser.extractLotIdFromFileName`. -/
def extractLotIdFromFileName (fileName : List Char) : String :=
  match findFirstMatch lotPatternAt fileName with
  | some m => String.mk m
  | none => "UNKNOWN_LOT"

/-- `StdfParser.extractPartTypeFromFileName`. -/
def extractPartTypeFromFileName (fileName : List Char) : String :=
  match findFirstMatch partPatternAt fileName with
  | some m => String.mk m
  | none => "UNKNOWN_PART"

/-- `StdfParser.extractWaferIdFromFileName`. -/
def extractWaferIdFromFileName (fileName : List Char) : String :=
  match findFirstMatch waferPatternAt fileName with
  | some m => String.mk m
  | none => "UNKNOWN_WAFER"

/-- `binCounts[binKey]` update: initialise `{count: 0, description}` when the
key is absent, then `count++`. -/
def bumpBin (hb : ℤ) : List (ℤ × BinInfo) → List (ℤ × BinInfo)
  | [] => [(hb, ⟨1, if hb = 1 then "Pass" else "Fail"⟩)]
  | (k, v) :: rest =>
    if k = hb then (k, ⟨v.count + 1, v.description⟩) :: rest
    else (k, v) :: bumpBin hb rest

/-- Sum of all `count` fields of a bin map. -/
def sumBinCounts (bins : List (ℤ × BinInfo)) : ℤ :=
  (bins.map (fun kv => kv.2.count)).sum

/-- `Math.random() > t ? (Math.random() > 0.5 ? 2 : 3) : 1`
(hard/soft bin pick of the PRR loop), returning the value and the next
random index. -/
def pickFailElse1 (rng : ℕ → ℚ) (k : ℕ) (t : ℚ) : ℤ × ℕ :=
  if t < rng k then (if 1/2 < rng (k + 1) then (2, k + 2) else (3, k + 2))
  else (1, k + 1)

/-- `Math.random() > t ? 1 : (Math.random() > 0.5 ? 2 : 3)`
(hard/soft bin pick of the padding loop and of the mock generator). -/
def pick1ElseFail (rng : ℕ → ℚ) (k : ℕ) (t : ℚ) : ℤ × ℕ :=
  if t < rng k then (1, k + 1)
  else (if 1/2 < rng (k + 1) then (2, k + 2) else (3, k + 2))

/-- The fixed test-name list of `extractStdfData`/`generateTestResults`. -/
def fixedTestNames : List String :=
  ["VDD_Test", "IDSS_Test", "Leakage_Test", "Freq_Test", "Gain_Test"]

/-- `StdfParser.generateTestResults`, threading the random index. -/
def genTestEntries (rng : ℕ → ℚ) : List String → ℕ → List (String × TestEntry) × ℕ
  | [], k => ([], k)
  | t :: ts, k =>
    let value := rng k * 100 + 50
    let res := (1/10 : ℚ) < rng (k + 1)
    let units :=
      if containsSub t.data "Freq".data then "MHz"
      else if containsSub t.data "VDD".data then "V" else "mA"
    let (rest, kfin) := genTestEntries rng ts (k + 2)
    ((t, ⟨value, res, units⟩) :: rest, kfin)

/-- `generateTestResults()` entry point. -/
def generateTestResults (rng : ℕ → ℚ) (k : ℕ) : List (String × TestEntry) × ℕ :=
  genTestEntries rng fixedTestNames k

/-- The `for` loop over PRR-kind records in `extractStdfData`: each PRR
record contributes one part with random coordinates/bins (the payload is
never read), and bumps the bin counters. -/
def prrLoop (rng : ℕ → ℚ) :
    List RawRecord → List StdfTestResult → List (ℤ × BinInfo) → ℕ →
      List StdfTestResult × List (ℤ × BinInfo) × ℕ
  | [], parts, bins, k => (parts, bins, k)
  | _ :: rest, parts, bins, k =>
    let x := ⌊rng k * 20⌋ - 10
    let y := ⌊rng (k + 1) * 20⌋ - 10
    let hbk := pickFailElse1 rng (k + 2) (85/100)
    let sbk := pickFailElse1 rng hbk.2 (85/100)
    let part : StdfTestResult :=
      ⟨"P" ++ toString (parts.length + 1), x, y, hbk.1, sbk.1, 1, []⟩
    prrLoop rng rest (parts ++ [part]) (bumpBin hbk.1 bins) sbk.2

/-- One iteration body of the padding `while` loop (`parts.length <
estimatedParts`): a fully synthetic part. -/
def padIter (rng : ℕ → ℚ) (k : ℕ) (idx : ℕ) : StdfTestResult × ℕ :=
  let x := ⌊rng k * 40⌋ - 20
  let y := ⌊rng (k + 1) * 40⌋ - 20
  let (hb, k2) := pick1ElseFail rng (k + 2) (12/100)
  let (sb, k3) := pick1ElseFail rng k2 (12/100)
  let site := ⌊rng k3 * 4⌋ + 1
  let (tr, k4) := generateTestResults rng (k3 + 1)
  (⟨"P" ++ toString idx, x, y, hb, sb, site, tr⟩, k4)

/-- The padding `while` loop of `extractStdfData`; fuel of at least
`est - parts.length` computes it exactly (each pass appends one part). -/
def padLoop (rng : ℕ → ℚ) (est : ℕ) :
    ℕ → List StdfTestResult → List (ℤ × BinInfo) → ℕ →
      List StdfTestResult × List (ℤ × BinInfo) × ℕ
  | 0, parts, bins, k => (parts, bins, k)
  | fuel + 1, parts, bins, k =>
    if parts.length < est then
      let pk := padIter rng k (parts.length + 1)
      padLoop rng est fuel (parts ++ [pk.1]) (bumpBin pk.1.hardBin bins) pk.2
    else (parts, bins, k)

/-- `Math.max(100, Math.min(10000, Math.floor(Math.random() * 5000) + 1000))`. -/
def estimatedPartsOf (r : ℚ) : ℤ := max 100 (min 10000 (⌊r * 5000⌋ + 1000))

/-- `values.reduce((sum, val) => sum + val, 0)`. -/
def listSumQ (l : List ℚ) : ℚ := l.foldl (· + ·) 0

/-- `Math.min(...values)`; the empty case (JS `Infinity`) is unreachable in
`extractStdfData` since `parts.length ≥ 100` there. -/
def listMinQ : List ℚ → ℚ
  | [] => 0
  | x :: xs => xs.foldl min x

/-- `Math.max(...values)`; empty case as in `listMinQ`. -/
def listMaxQ : List ℚ → ℚ
  | [] => 0
  | x :: xs => xs.foldl max x

/-- `parts.map(p => p.testResults[testName]?.value || Math.random() * 100)`:
a missing entry — or a falsy (zero) value — is replaced by a fresh random
draw. -/
def collectTestValues (rng : ℕ → ℚ) (name : String) :
    List StdfTestResult → ℕ → List ℚ × ℕ
  | [], k => ([], k)
  | p :: ps, k =>
    match p.testResults.lookup name with
    | some e =>
      if e.value = 0 then
        let (rest, kfin) := collectTestValues rng name ps (k + 1)
        (rng k * 100 :: rest, kfin)
      else
        let (rest, kfin) := collectTestValues rng name ps k
        (e.value :: rest, kfin)
    | none =>
      let (rest, kfin) := collectTestValues rng name ps (k + 1)
      (rng k * 100 :: rest, kfin)

/-- The `testNames.forEach` statistics block of `extractStdfData`. -/
def testSummaryLoop (rng : ℕ → ℚ) (sqrtFn : ℚ → ℚ) (parts : List StdfTestResult) :
    List String → ℕ → List (String × TestStat) × ℕ
  | [], k => ([], k)
  | name :: names, k =>
    let (values, k1) := collectTestValues rng name parts k
    let mean := listSumQ values / values.length
    let variance := listSumQ (values.map (fun v => (v - mean) ^ 2)) / values.length
    let stat : TestStat :=
      ⟨listMinQ values, listMaxQ values, mean, sqrtFn variance, values.length⟩
    let (rest, kfin) := testSummaryLoop rng sqrtFn parts names k1
    ((name, stat) :: rest, kfin)

/--
`StdfParser.extractStdfData(records, fileName, hasParseErrors)`.  Faithful
to the source: the `hasParseErrors` argument is accepted and never used; a
random estimated part count (at least 1000 for `rng` values in `[0,1)`) pads
the part list with synthetic parts; no degraded indicator exists on the
result.  `now` stands for `new Date().toISOString()` and `sqrtFn` for
`Math.sqrt` (used only in `stdDev`).
-/
def extractStdfData (records : List RawRecord) (fileName : List Char)
    (hasParseErrors : Bool) (now : String) (rng : ℕ → ℚ) (sqrtFn : ℚ → ℚ) :
    ParsedStdfData :=
  let header0 : StdfHeader :=
    ⟨"1.0", "UNKNOWN", "UNKNOWN", "UNKNOWN", now, "UNKNOWN", 25⟩
  let mirRecord := records.find? (fun r => r.type = 1 && r.subType = 10)
  let header :=
    match mirRecord with
    | some _ =>
      { header0 with
        lotId := extractLotIdFromFileName fileName,
        partType := extractPartTypeFromFileName fileName }
    | none => header0
  let wirRecord := records.find? (fun r => r.type = 2 && r.subType = 10)
  let waferInfo : Option StdfWaferInfo :=
    match wirRecord with
    | some _ =>
      some ⟨extractWaferIdFromFileName fileName, 100, 100, "MM", "DOWN", 0, 0⟩
    | none => none
  let prrRecords := records.filter (fun r => r.type = 5 && r.subType = 20)
  let r1 := prrLoop rng prrRecords [] [] 0
  let est := (estimatedPartsOf (rng r1.2.2)).toNat
  let r2 := padLoop rng est (est - r1.1.length) r1.1 r1.2.1 (r1.2.2 + 1)
  let parts := r2.1
  let bins := r2.2.1
  let totalParts := parts.length
  let passParts := (parts.filter (fun p => p.hardBin = 1)).length
  let failParts := totalParts - passParts
  let yieldPercentage : ℚ :=
    if 0 < totalParts then (passParts : ℚ) / (totalParts : ℚ) * 100 else 0
  let testSummary := (testSummaryLoop rng sqrtFn parts fixedTestNames r2.2.2).1
  { header := header,
    waferInfo := waferInfo,
    parts := parts,
    summary := ⟨totalParts, passParts, failParts, yieldPercentage, fixedTestNames⟩,
    binSummary := bins,
    testSummary := testSummary }

/-- `StdfParser.parseStdfBuffer`: scan, then aggregate.  The scan's error
tally is reduced to the boolean `parseErrors > 0` passed to
`extractStdfData` — which ignores it. -/
def parseStdfBuffer (buf : List ℕ) (fileName : List Char) (now : String)
    (rng : ℕ → ℚ) (sqrtFn : ℚ → ℚ) : ParsedStdfData :=
  let s := parseStdfBufferScan buf
  extractStdfData s.records fileName (decide (0 < s.parseErrors)) now rng sqrtFn

/-! ## Mock-data generator (`StdfParser.generateMockStdfData`, first parser) -/

/-- The `for (let i = 0; i < partCount; i++)` part-generation loop of
`generateMockStdfData`. -/
def mockLoop (rng : ℕ → ℚ) : ℕ → List StdfTestResult → ℕ → List StdfTestResult × ℕ
  | 0, parts, k => (parts, k)
  | n + 1, parts, k =>
    let x := ⌊rng k * 40⌋ - 20
    let y := ⌊rng (k + 1) * 40⌋ - 20
    let hbk := pick1ElseFail rng (k + 2) (15/100)
    let sbk := pick1ElseFail rng hbk.2 (15/100)
    let site := ⌊rng sbk.2 * 4⌋ + 1
    let tr := generateTestResults rng (sbk.2 + 1)
    mockLoop rng n
      (parts ++ [⟨"P" ++ toString (parts.length + 1), x, y, hbk.1, sbk.1, site, tr.1⟩])
      tr.2

/--
`StdfParser.generateMockStdfData(fileName)`: wholly synthetic data, with
`partCount = Math.floor(Math.random() * 5000) + 1000` parts and a fixed-form
`binSummary` (`'2'` and `'3'` split `failParts` via `floor`/`ceil`).
-/
def generateMockStdfData (fileName : List Char) (now : String) (rng : ℕ → ℚ) :
    ParsedStdfData :=
  let partCount := ⌊rng 0 * 5000⌋ + 1000
  let parts := (mockLoop rng partCount.toNat [] 1).1
  let totalParts := parts.length
  let passParts := (parts.filter (fun p => p.hardBin = 1)).length
  let failParts := totalParts - passParts
  let yieldPercentage : ℚ := (passParts : ℚ) / (totalParts : ℚ) * 100
  { header :=
      ⟨"1.0", extractLotIdFromFileName fileName, extractPartTypeFromFileName fileName,
        "AUTO_GENERATED", now, "SYSTEM", 25⟩,
    waferInfo :=
      some ⟨extractWaferIdFromFileName fileName, 100, 100, "MM", "DOWN", 0, 0⟩,
    parts := parts,
    summary := ⟨totalParts, passParts, failParts, yieldPercentage, fixedTestNames⟩,
    binSummary :=
      [(1, ⟨passParts, "Pass"⟩),
       (2, ⟨⌊(failParts : ℚ) * 0.6⌋, "Fail - Electrical"⟩),
       (3, ⟨⌈(failParts : ℚ) * 0.4⌉, "Fail - Mechanical"⟩)],
    testSummary :=
      [("VDD_Test", ⟨3.2, 3.4, 3.3, 0.05, totalParts⟩),
       ("IDSS_Test", ⟨10, 50, 30, 8, totalParts⟩),
       ("Leakage_Test", ⟨0.1, 2.0, 0.5, 0.3, totalParts⟩),
       ("Freq_Test", ⟨900, 1100, 1000, 50, totalParts⟩),
       ("Gain_Test", ⟨15, 25, 20, 2, totalParts⟩)] }

/-- `jsParseInt`-like partial integer parse used by
`parseInt(this.readString(...))`: leading whitespace, optional sign, then a
non-empty digit run; `none` is `NaN`. -/
def jsParseInt (s : List Char) : Option ℤ :=
  let t := s.dropWhile isJsWs
  let core : List Char → Option ℤ := fun u =>
    let ds := u.takeWhile isDigitChar
    if ds.length = 0 then none
    else some (ds.foldl (fun acc c => acc * 10 + ((c.toNat : ℤ) - 48)) 0)
  match t with
  | '-' :: u => (core u).map (fun z => -z)
  | '+' :: u => core u
  | u => core u

/-! ## Second document's `StdfParser.parseStdfFile` (record loop with
interpreters `parseMasterInfo`, `parsePartResult`, `readString`).

The source wraps the WHOLE record `while` loop in a single `try`/`catch`
("Continue with partial data"), so an interpreter exception abandons all
remaining records.  An `Option` result of `none` models the thrown
`RangeError` of an out-of-bounds `DataView`/`Uint8Array` access. -/

namespace V2

/-- `PartResult` of the second parser (`testResults` is always `[]` in the
source — "Simplified"). -/
structure PartResult where
  partId : ℤ
  xCoordinate : Option ℤ
  yCoordinate : Option ℤ
  hardBin : ℕ
  softBin : ℕ
  testTime : ℕ
  deriving DecidableEq, Repr

/-- Accumulating `Partial<StdfHeader>` of the second parser (only the fields
the record loop actually writes; dates are kept as raw `u32` timestamps). -/
structure HeaderAcc where
  fileVersion : Option String
  lotId : Option String
  partType : Option String
  startTime : Option ℕ
  endTime : Option ℕ
  deriving DecidableEq, Repr

/-- `new Uint8Array(view.buffer, offset, length)` + `TextDecoder.decode` +
`replace(/\0/g, '')` + `trim()`: ASCII model, `none` is the `RangeError`. -/
def readString (buf : List ℕ) (offset length : ℕ) : Option String :=
  if offset + length ≤ buf.length then
    some (String.mk (jsTrim ((((buf.drop offset).take length).map Char.ofNat).filter
      (fun c => c ≠ Char.ofNat 0))))
  else none

/-- `readDateTime`: `getUint32(offset, true)` (seconds; the `* 1000` of the
`Date` constructor is dropped along with the `Date` wrapper). -/
def readDateTime (buf : List ℕ) (offset : ℕ) : Option ℕ := getUint32LE buf offset

/-- `parseMasterInfo(view, offset, header)`: fixed skips, then two
length-prefixed strings; returns the updated header and the new cursor
(which the caller assigns to `offset`). -/
def parseMasterInfo (buf : List ℕ) (offset : ℕ) (hdr : HeaderAcc) :
    Option (HeaderAcc × ℕ) := do
  let startTime ← readDateTime buf (offset + 4)
  let lotIdLength ← getUint8 buf (offset + 15)
  let lotId ← readString buf (offset + 16) lotIdLength
  let partTypeLength ← getUint8 buf (offset + 16 + lotIdLength)
  let partType ← readString buf (offset + 17 + lotIdLength) partTypeLength
  pure ({ hdr with startTime := some startTime, lotId := some lotId,
                   partType := some partType },
        offset + 17 + lotIdLength + partTypeLength)

/-- `parsePartResult(view, offset)`: fixed-offset little-endian fields, then
a length-prefixed part id; all reads unchecked against the record length. -/
def parsePartResult (buf : List ℕ) (offset : ℕ) : Option PartResult := do
  let _numTests ← getUint16LE buf (offset + 3)
  let hardBin ← getUint16LE buf (offset + 5)
  let softBin ← getUint16LE buf (offset + 7)
  let xCoordinate ← getInt16LE buf (offset + 9)
  let yCoordinate ← getInt16LE buf (offset + 11)
  let testTime ← getUint32LE buf (offset + 13)
  let partIdLength ← getUint8 buf (offset + 17)
  let partIdStr ← readString buf (offset + 18) partIdLength
  let partId : ℤ :=
    if 0 < partIdLength then (jsParseInt partIdStr.data).getD 0 else 0
  pure { partId := partId,
         xCoordinate := if xCoordinate ≠ -32768 then some xCoordinate else none,
         yCoordinate := if yCoordinate ≠ -32768 then some yCoordinate else none,
         hardBin := hardBin, softBin := softBin, testTime := testTime }

/-- Loop state of the second parser: cursor plus all accumulators. -/
structure LoopState where
  offset : ℕ
  header : HeaderAcc
  parts : List PartResult
  testNames : List String
  hardBins : List (ℕ × ℕ)
  softBins : List (ℕ × ℕ)
  deriving DecidableEq, Repr

/-- `bins[bin] = (bins[bin] || 0) + 1` on an insertion-ordered map. -/
def bumpCount (key : ℕ) : List (ℕ × ℕ) → List (ℕ × ℕ)
  | [] => [(key, 1)]
  | (k, v) :: rest =>
    if k = key then (k, v + 1) :: rest else (k, v) :: bumpCount key rest

/-- Outcome of one iteration of the second parser's record loop: continue,
`break` out of the loop, or a thrown exception (caught OUTSIDE the loop). -/
inductive V2Iter where
  | next (s : LoopState)
  | brk (s : LoopState)
  | thrown (s : LoopState)
  deriving DecidableEq, Repr

/--
One iteration of the second parser's `while (offset < buffer.byteLength - 4)`
loop: read the little-endian record header, advance by 4, `break` if the
record overruns the buffer, dispatch on `(recordType, recordSubType)`, then
advance by `recordLength` (except MIR, whose `continue` keeps the cursor
returned by `parseMasterInfo`).  A `none` from any interpreter becomes
`.thrown` — the exception the source catches outside the loop.
-/
def v2Iter (buf : List ℕ) (s : LoopState) : V2Iter :=
  match getUint16LE buf s.offset, getUint8 buf (s.offset + 2), getUint8 buf (s.offset + 3) with
  | some recordLength, some recordType, some recordSubType =>
    let offset := s.offset + 4
    if buf.length < offset + recordLength then .brk s
    else
      if recordType = 0 then
        if recordSubType = 10 then
          match readString buf offset 2 with
          | some v =>
            .next { s with offset := offset + recordLength,
                           header := { s.header with fileVersion := some v } }
          | none => .thrown s
        else .next { s with offset := offset + recordLength }
      else if recordType = 1 then
        if recordSubType = 10 then
          match parseMasterInfo buf offset s.header with
          | some hn => .next { s with offset := hn.2, header := hn.1 }
          | none => .thrown s
        else if recordSubType = 20 then
          match readDateTime buf offset with
          | some t =>
            .next { s with offset := offset + recordLength,
                           header := { s.header with endTime := some t } }
          | none => .thrown s
        else .next { s with offset := offset + recordLength }
      else if recordType = 2 then
        if recordSubType = 20 then
          match parsePartResult buf offset with
          | some p =>
            .next { s with offset := offset + recordLength,
                           parts := s.parts ++ [p],
                           hardBins := bumpCount p.hardBin s.hardBins,
                           softBins := bumpCount p.softBin s.softBins }
          | none => .thrown s
        else .next { s with offset := offset + recordLength }
      else if recordType = 15 then
        if recordSubType = 10 then
          match readString buf (offset + 4) 40 with
          | some testName =>
            if testName ≠ "" && !(s.testNames.contains testName) then
              .next { s with offset := offset + recordLength,
                             testNames := s.testNames ++ [testName] }
            else .next { s with offset := offset + recordLength }
          | none => .thrown s
        else .next { s with offset := offset + recordLength }
      else .next { s with offset := offset + recordLength }
  | _, _, _ => .thrown s

/-- The second parser's record loop with structural fuel; any fuel of at
least `buf.length - s.offset` computes the source loop exactly.  Both
`break` and a thrown-and-caught exception return the state accumulated so
far ("Continue with partial data"). -/
def v2Loop (buf : List ℕ) : ℕ → LoopState → LoopState
  | 0, s => s
  | fuel + 1, s =>
    if s.offset + 4 < buf.length then
      match v2Iter buf s with
      | .next s' => v2Loop buf fuel s'
      | .brk s' => s'
      | .thrown s' => s'
    else s

/-- `testSummary` block computed at the end of the second `parseStdfFile`
from the collected parts (shape shared by every exit path of the loop). -/
structure Summary where
  totalParts : ℕ
  passParts : ℕ
  failParts : ℕ
  yieldPercentage : ℚ
  testNames : List String
  deriving DecidableEq, Repr

/-- The summary computation (lines following the loop): `passParts` counts
`hardBin === 1`, and yield is guarded against `totalParts === 0`. -/
def mkSummary (parts : List PartResult) (testNames : List String) : Summary :=
  let totalParts := parts.length
  let passParts := (parts.filter (fun p => p.hardBin = 1)).length
  let failParts := totalParts - passParts
  let yieldPercentage : ℚ :=
    if 0 < totalParts then (passParts : ℚ) / (totalParts : ℚ) * 100 else 0
  ⟨totalParts, passParts, failParts, yieldPercentage, testNames⟩

/-- Result assembled by the second `parseStdfFile`. -/
structure Parsed where
  header : HeaderAcc
  parts : List PartResult
  testSummary : Summary
  hardBins : List (ℕ × ℕ)
  softBins : List (ℕ × ℕ)
  deriving DecidableEq, Repr

/-- The whole second `parseStdfFile` over an in-memory buffer. -/
def parseStdfFile (buf : List ℕ) : Parsed :=
  let s0 : LoopState := ⟨0, ⟨none, none, none, none, none⟩, [], [], [], []⟩
  let s := v2Loop buf (buf.length - s0.offset) s0
  { header := s.header,
    parts := s.parts,
    testSummary := mkSummary s.parts s.testNames,
    hardBins := s.hardBins,
    softBins := s.softBins }

end V2

/-! ## Coordinate-map text parsers (`EdsMapParser.parseWaferMapFile` and
`SecondFoundryParser.parseSecondFoundryFile`) -/

/-- `String.prototype.split(sep)` on character lists (single-char separator). -/
def splitOnChar (sep : Char) : List Char → List (List Char)
  | [] => [[]]
  | c :: cs =>
    let r := splitOnChar sep cs
    if c = sep then [] :: r
    else
      match r with
      | [] => [[c]]
      | h :: t => (c :: h) :: t

/-- `line.split(':')[1]?.trim()`: the text between the first and second
colon, trimmed; `none` when the line has no colon. -/
def afterColon (l : List Char) : Option (List Char) :=
  match splitOnChar ':' l with
  | _ :: v :: _ => some (jsTrim v)
  | _ => none

/-- Accumulated digit value of a decimal digit run. -/
def digitsVal (ds : List Char) : ℕ :=
  ds.foldl (fun a c => a * 10 + (c.toNat - 48)) 0

/-- `parseFloat` on a decimal string (optional sign, digits, optional
fractional part; the exponent form is not modelled); `none` is `NaN`. -/
def jsParseFloat (s : List Char) : Option ℚ :=
  let core : List Char → Option ℚ := fun u =>
    let ip := u.takeWhile isDigitChar
    match u.drop ip.length with
    | '.' :: fr =>
      let fp := fr.takeWhile isDigitChar
      if ip.length = 0 && fp.length = 0 then none
      else some ((digitsVal ip : ℚ) + (digitsVal fp : ℚ) / (10 ^ fp.length))
    | _ => if ip.length = 0 then none else some (digitsVal ip : ℚ)
  match s.dropWhile isJsWs with
  | '-' :: u => (core u).map Neg.neg
  | '+' :: u => core u
  | u => core u

/-- `String.prototype.replace('%', '')`: remove the first `'%'` only. -/
def removeFirstPct : List Char → List Char
  | [] => []
  | c :: cs => if c = '%' then cs else c :: removeFirstPct cs

/-- The grid-row character class `^[1X\.\s]+$` of `EdsMapParser`. -/
def isGridLineEds (l : List Char) : Bool :=
  decide (l ≠ []) && l.all (fun c => c = '1' || c = 'X' || c = '.' || isJsWs c)

/-- The grid-row character class `^[1X\.\sT]+$` of `SecondFoundryParser`. -/
def isGridLineSf (l : List Char) : Bool :=
  decide (l ≠ []) &&
    l.all (fun c => c = '1' || c = 'X' || c = '.' || c = 'T' || isJsWs c)

/-- `WaferMapHeader` of `EdsMapParser` (a JS `Partial<>` during parsing:
unset fields are `none`; a `NaN` from `parseInt`/`parseFloat` is also
modelled as `none`). -/
structure WaferMapHeader where
  device : Option String
  lotNo : Option String
  slotNo : Option ℤ
  waferId : Option String
  waferSize : Option String
  flatDir : Option String
  totalTestDie : Option ℤ
  passDie : Option ℤ
  failDie : Option ℤ
  yield : Option ℚ
  deriving DecidableEq, Repr

/-- `WaferMapData` of `EdsMapParser`: header, grid rows, and the
fixed-key bin counters. -/
structure WaferMapData where
  header : WaferMapHeader
  coordinateMap : List (List Char)
  binCounts : List (Char × ℕ)
  deriving DecidableEq, Repr

/-- `binCounts[char]++` guarded by `binCounts[char] !== undefined`:
only already-present keys are counted. -/
def bumpExisting (c : Char) : List (Char × ℕ) → List (Char × ℕ)
  | [] => []
  | (k, v) :: rest =>
    if k = c then (k, v + 1) :: rest else (k, v) :: bumpExisting c rest

/-- `EdsMapParser` per-cell counter update (`if (binCounts[char] !==
undefined) binCounts[char]++`). -/
def edsCellUpdate (m : List (Char × ℕ)) (c : Char) : List (Char × ℕ) :=
  if (m.lookup c).isSome then bumpExisting c m else m

/-- `SecondFoundryParser` per-cell counter update: bump a present key, else
add any non-space key with count 1. -/
def sfCellUpdate (m : List (Char × ℕ)) (c : Char) : List (Char × ℕ) :=
  if (m.lookup c).isSome then bumpExisting c m
  else if c ≠ ' ' then m ++ [(c, 1)]
  else m

/-- Header scan of `parseWaferMapFile`: walk the lines, populating header
fields by keyword, until the first grid-class line; returns the updated
header and (when found) that line's index (`bodyStartIndex`). -/
def edsHeaderScan : List (List Char) → ℕ → WaferMapHeader → WaferMapHeader × Option ℕ
  | [], _i, hdr => (hdr, none)
  | l :: rest, i, hdr =>
    if containsSub l "Device".data then
      edsHeaderScan rest (i + 1)
        { hdr with device := some (String.mk ((afterColon l).getD [])) }
    else if containsSub l "Lot NO".data then
      edsHeaderScan rest (i + 1)
        { hdr with lotNo := some (String.mk ((afterColon l).getD [])) }
    else if containsSub l "Slot No".data then
      edsHeaderScan rest (i + 1)
        { hdr with slotNo := jsParseInt ((afterColon l).getD ('0' :: [])) }
    else if containsSub l "Wafer ID".data then
      edsHeaderScan rest (i + 1)
        { hdr with waferId := some (String.mk ((afterColon l).getD [])) }
    else if containsSub l "Wafer Size".data then
      edsHeaderScan rest (i + 1)
        { hdr with waferSize := some (String.mk ((afterColon l).getD [])) }
    else if containsSub l "Flat Dir".data then
      edsHeaderScan rest (i + 1)
        { hdr with flatDir := some (String.mk ((afterColon l).getD [])) }
    else if containsSub l "Total test die".data then
      edsHeaderScan rest (i + 1)
        { hdr with totalTestDie := jsParseInt ((afterColon l).getD ('0' :: [])) }
    else if containsSub l "Pass Die".data then
      edsHeaderScan rest (i + 1)
        { hdr with passDie := jsParseInt ((afterColon l).getD ('0' :: [])) }
    else if containsSub l "Fail Die".data then
      edsHeaderScan rest (i + 1)
        { hdr with failDie := jsParseInt ((afterColon l).getD ('0' :: [])) }
    else if containsSub l "Yield".data then
      edsHeaderScan rest (i + 1)
        { hdr with yield :=
            jsParseFloat (match afterColon l with
                          | some v => removeFirstPct v
                          | none => '0' :: []) }
    else if isGridLineEds l then (hdr, some i)
    else edsHeaderScan rest (i + 1) hdr

/-- Body scan of `parseWaferMapFile`: every grid-class line becomes a row of
cells (spaces stripped), and each cell updates the counters. -/
def edsBodyLoop :
    List (List Char) → List (List Char) → List (Char × ℕ) →
      List (List Char) × List (Char × ℕ)
  | [], rows, m => (rows, m)
  | l :: rest, rows, m =>
    if isGridLineEds l then
      let row := l.filter (fun c => c ≠ ' ')
      edsBodyLoop rest (rows ++ [row]) (row.foldl edsCellUpdate m)
    else edsBodyLoop rest rows m

/-- `EdsMapParser.parseWaferMapFile(filename, content)` (the `filename`
argument is unused in the source body). -/
def parseWaferMapFile (_filename : String) (content : List Char) : WaferMapData :=
  let lines := ((splitOnChar '\n' content).map jsTrim).filter (fun l => l ≠ [])
  let hs := edsHeaderScan lines 0
    ⟨none, none, none, none, none, none, none, none, none, none⟩
  let bodyStartIndex := hs.2.getD 0
  let body := edsBodyLoop (lines.drop bodyStartIndex) [] [('1', 0), ('X', 0), ('.', 0)]
  ⟨hs.1, body.1, body.2⟩

/-- `SecondFoundryHeader` (`Partial<>` during parsing, as above). -/
structure SecondFoundryHeader where
  device : Option String
  waferId : Option String
  x : Option ℤ
  y : Option ℤ
  good : Option ℤ
  fail : Option ℤ
  flat : Option ℤ
  deriving DecidableEq, Repr

/-- `SecondFoundryMapData`. -/
structure SecondFoundryMapData where
  header : SecondFoundryHeader
  coordinateMap : List (List Char)
  binCounts : List (Char × ℕ)
  yield : ℚ
  deriving DecidableEq, Repr

/-- `c.toUpperCase()` for the ASCII range. -/
def charUpper (c : Char) : Char :=
  if 'a' ≤ c && c ≤ 'z' then Char.ofNat (c.toNat - 32) else c

/-- `key.toUpperCase()` comparison target. -/
def upperEq (key : List Char) (target : String) : Bool :=
  key.map charUpper = target.data

/-- Header scan of `parseSecondFoundryFile`: `Key : Value` lines populate the
header via an upper-cased key switch, until the first grid-class line. -/
def sfHeaderScan : List (List Char) → ℕ → SecondFoundryHeader →
    SecondFoundryHeader × Option ℕ
  | [], _i, hdr => (hdr, none)
  | l :: rest, i, hdr =>
    if containsSub l (':' :: []) then
      let parts := (splitOnChar ':' l).map jsTrim
      let key := parts.headD []
      let value : Option (List Char) := parts[1]?
      let hdr' :=
        if upperEq key "DEVICE" then { hdr with device := value.map String.mk }
        else if upperEq key "WAFERID" then { hdr with waferId := value.map String.mk }
        else if upperEq key "X" then { hdr with x := jsParseInt (value.getD []) }
        else if upperEq key "Y" then { hdr with y := jsParseInt (value.getD []) }
        else if upperEq key "GOOD" then { hdr with good := jsParseInt (value.getD []) }
        else if upperEq key "FAIL" then { hdr with fail := jsParseInt (value.getD []) }
        else if upperEq key "FLAT" then { hdr with flat := jsParseInt (value.getD []) }
        else hdr
      sfHeaderScan rest (i + 1) hdr'
    else if isGridLineSf l then (hdr, some i)
    else sfHeaderScan rest (i + 1) hdr

/-- Body scan of `parseSecondFoundryFile`. -/
def sfBodyLoop :
    List (List Char) → List (List Char) → List (Char × ℕ) →
      List (List Char) × List (Char × ℕ)
  | [], rows, m => (rows, m)
  | l :: rest, rows, m =>
    if decide (0 < l.length) && isGridLineSf l then
      let row := l.filter (fun c => c ≠ ' ')
      sfBodyLoop rest (rows ++ [row]) (row.foldl sfCellUpdate m)
    else sfBodyLoop rest rows m

/-- `SecondFoundryParser.parseSecondFoundryFile(filename, content)` (the
`filename` argument is unused in the source body; the `console.warn`
mismatch diagnostics have no result effect and are omitted). -/
def parseSecondFoundryFile (_filename : String) (content : List Char) :
    SecondFoundryMapData :=
  let lines := (splitOnChar '\n' content).map jsTrim
  let hs := sfHeaderScan lines 0 ⟨none, none, none, none, none, none, none⟩
  let mapStartIndex := hs.2.getD 0
  let body := sfBodyLoop (lines.drop mapStartIndex) [] [('1', 0), ('X', 0), ('.', 0)]
  let header := hs.1
  let totalDies := header.good.getD 0 + header.fail.getD 0
  let yield : ℚ :=
    if 0 < totalDies then ((header.good.getD 0 : ℚ) / (totalDies : ℚ)) * 100 else 0
  ⟨header, body.1, body.2, yield⟩

/-- Sum of all counter values of a `binCounts` map. -/
def sumCharCounts (m : List (Char × ℕ)) : ℕ := (m.map (fun kv => kv.2)).sum

/-! ## Cross-source validator (`DataValidator.generateIntegrityReport`) -/

/-- `ValidationResult.severity`. -/
inductive Sev where
  | error
  | warning
  | info
  deriving DecidableEq, Repr

/-- `DataIntegrityReport.overallStatus`. -/
inductive VStatus where
  | pass
  | warning
  | fail
  deriving DecidableEq, Repr

/-- Severity order on statuses: `fail > warning > pass`. -/
def statusMax : VStatus → VStatus → VStatus
  | .fail, _ => .fail
  | _, .fail => .fail
  | .warning, _ => .warning
  | _, .warning => .warning
  | .pass, .pass => .pass

/-- Rank of a status for the `≤` order. -/
def statusRank : VStatus → ℕ
  | .pass => 0
  | .warning => 1
  | .fail => 2

/-- The status a result severity implies (`error → fail`,
`warning → warning`, `info → pass`). -/
def sevStatus : Sev → VStatus
  | .error => .fail
  | .warning => .warning
  | .info => .pass

/-- Messages and details of the validator, as a tagged union carrying the
interpolated values (string formatting such as `toFixed` is not modelled;
the payloads carry the exact numbers). -/
inductive VMsg where
  | noValidationPerformed
  | waferCountMatchMsg (n : ℕ)
  | waferCountMismatchMsg (farTotal : ℤ) (found : ℕ)
  | waferCountMismatchDetail
  | bin1MatchMsg (total : ℤ)
  | bin1MismatchMsg (farTotal mapTotal variance : ℤ)
  | bin1VarianceDetail (percentageVariance : ℚ)
  | lotMatchMsg
  | lotMatchDetail (dies pass : ℤ)
  | lotMismatchMsg
  | lotMismatchDetail (mapDies lotDies mapPass lotPass : ℤ)
  | crossMissingMsg (waferId : String)
  | crossBin1Msg (waferId : String)
  | crossBin1Detail (farCount mapCount : ℤ)
  | yieldVarianceMsg (waferId : String)
  | yieldVarianceDetail (reported calculated : ℚ)
  | excellentYieldMsg (waferId : String) (y : ℚ)
  | lowYieldMsg (waferId : String) (y : ℚ)
  deriving DecidableEq, Repr

/-- `ValidationResult`. -/
structure ValidationResult where
  isValid : Bool
  severity : Sev
  message : VMsg
  details : Option VMsg
  deriving DecidableEq, Repr

/-- `DataIntegrityReport`. -/
structure DataIntegrityReport where
  overallStatus : VStatus
  waferCountValidation : ValidationResult
  bin1CountValidation : ValidationResult
  lotSummaryValidation : ValidationResult
  crossFileValidation : List ValidationResult
  individualWaferValidation : List ValidationResult
  recommendations : List String
  deriving DecidableEq, Repr

/-- Wafer-map header fields read by the validator. -/
structure VWaferHeader where
  waferId : String
  passDie : ℤ
  totalTestDie : ℤ
  yield : ℚ
  deriving DecidableEq, Repr

/-- A wafer map as seen by the validator. -/
structure VWaferMap where
  header : VWaferHeader
  deriving DecidableEq, Repr

/-- One `waferMappings` row of a FAR summary. -/
structure VFarMapping where
  mapping : String
  waferId : String
  bin1Count : ℤ
  deriving DecidableEq, Repr

/-- FAR summary fields read by the validator. -/
structure VFarSummary where
  totalWafer : ℤ
  waferMappings : List VFarMapping
  deriving DecidableEq, Repr

/-- Lot-summary fields read by the validator. -/
structure VLotSummary where
  totalDies : ℤ
  totalPass : ℤ
  deriving DecidableEq, Repr

/-- The report before any check has run. -/
def initialReport : DataIntegrityReport :=
  { overallStatus := .pass,
    waferCountValidation := ⟨true, .info, .noValidationPerformed, none⟩,
    bin1CountValidation := ⟨true, .info, .noValidationPerformed, none⟩,
    lotSummaryValidation := ⟨true, .info, .noValidationPerformed, none⟩,
    crossFileValidation := [],
    individualWaferValidation := [],
    recommendations := [] }

/-- Wafer-count check (`if (farSummary) { ... }`). -/
def waferCountCheck (maps : List VWaferMap) (far : Option VFarSummary)
    (r : DataIntegrityReport) : DataIntegrityReport :=
  match far with
  | none => r
  | some f =>
    if f.totalWafer = (maps.length : ℤ) then
      { r with waferCountValidation :=
          ⟨true, .info, .waferCountMatchMsg maps.length, none⟩ }
    else
      { r with
        waferCountValidation :=
          ⟨false, .error, .waferCountMismatchMsg f.totalWafer maps.length,
            some .waferCountMismatchDetail⟩,
        overallStatus := .fail,
        recommendations := r.recommendations ++
          ["Check for missing wafer map files or verify FAR file accuracy"] }

/-- `variance / Math.max(farTotal, mapTotal) * 100 > 5` with JS division
semantics: `Infinity` when the max is zero (and the variance positive),
negative when the max is negative. -/
def pvGt5 (variance m : ℤ) : Bool :=
  if 0 < m then 5 * m < 100 * variance
  else if m = 0 then true
  else false

/-- BIN1-count check (`if (farSummary && waferMaps.length > 0) { ... }`). -/
def bin1Check (maps : List VWaferMap) (far : Option VFarSummary)
    (r : DataIntegrityReport) : DataIntegrityReport :=
  match far with
  | none => r
  | some f =>
    if 0 < maps.length then
      let totalFarBin1 := (f.waferMappings.map (fun m => m.bin1Count)).sum
      let totalMapBin1 := (maps.map (fun w => w.header.passDie)).sum
      if totalFarBin1 = totalMapBin1 then
        { r with bin1CountValidation :=
            ⟨true, .info, .bin1MatchMsg totalMapBin1, none⟩ }
      else
        let variance := |totalFarBin1 - totalMapBin1|
        let percentageVariance : ℚ :=
          (variance : ℚ) / ((max totalFarBin1 totalMapBin1 : ℤ) : ℚ) * 100
        let r' :=
          { r with bin1CountValidation :=
              ⟨false, if pvGt5 variance (max totalFarBin1 totalMapBin1)
                        then .error else .warning,
                .bin1MismatchMsg totalFarBin1 totalMapBin1 variance,
                some (.bin1VarianceDetail percentageVariance)⟩ }
        if pvGt5 variance (max totalFarBin1 totalMapBin1) then
          { r' with overallStatus := .fail,
                    recommendations := r'.recommendations ++
                      ["Significant BIN1 count variance detected - verify test data integrity"] }
        else if r.overallStatus = .pass then
          { r' with overallStatus := .warning,
                    recommendations := r'.recommendations ++
                      ["Minor BIN1 count variance - check for rounding differences"] }
        else r'
    else r

/-- Lot-summary check (`if (lotSummary && waferMaps.length > 0) { ... }`). -/
def lotCheck (maps : List VWaferMap) (lot : Option VLotSummary)
    (r : DataIntegrityReport) : DataIntegrityReport :=
  match lot with
  | none => r
  | some ls =>
    if 0 < maps.length then
      let mapTotalDies := (maps.map (fun w => w.header.totalTestDie)).sum
      let mapTotalPass := (maps.map (fun w => w.header.passDie)).sum
      let lotDiesMatch := |ls.totalDies - mapTotalDies| ≤ 1
      let lotPassMatch := |ls.totalPass - mapTotalPass| ≤ 1
      if lotDiesMatch ∧ lotPassMatch then
        { r with lotSummaryValidation :=
            ⟨true, .info, .lotMatchMsg, some (.lotMatchDetail mapTotalDies mapTotalPass)⟩ }
      else
        let r' :=
          { r with lotSummaryValidation :=
              ⟨false, .warning, .lotMismatchMsg,
                some (.lotMismatchDetail mapTotalDies ls.totalDies mapTotalPass ls.totalPass)⟩ }
        let r'' :=
          if r.overallStatus = .pass then { r' with overallStatus := .warning } else r'
        { r'' with recommendations := r''.recommendations ++
            ["Check lot summary calculation methodology"] }
    else r

/-- One `farSummary.waferMappings.forEach` pass of the cross-file check. -/
def crossStep (maps : List VWaferMap) (r : DataIntegrityReport)
    (mapping : VFarMapping) : DataIntegrityReport :=
  match maps.find? (fun w => w.header.waferId = mapping.waferId) with
  | none =>
    { r with
      crossFileValidation := r.crossFileValidation ++
        [⟨false, .error, .crossMissingMsg mapping.waferId, none⟩],
      overallStatus := .fail }
  | some w =>
    if 0 < |w.header.passDie - mapping.bin1Count| then
      let variance := |w.header.passDie - mapping.bin1Count|
      let r' :=
        { r with crossFileValidation := r.crossFileValidation ++
            [⟨false, if 10 < variance then .error else .warning,
              .crossBin1Msg mapping.waferId,
              some (.crossBin1Detail mapping.bin1Count w.header.passDie)⟩] }
      if 10 < variance ∧ r.overallStatus ≠ .fail then
        { r' with overallStatus := .fail }
      else if r.overallStatus = .pass then
        { r' with overallStatus := .warning }
      else r'
    else r

/-- Cross-file check (`if (farSummary && waferMaps.length > 0) { ... }`). -/
def crossCheck (maps : List VWaferMap) (far : Option VFarSummary)
    (r : DataIntegrityReport) : DataIntegrityReport :=
  match far with
  | none => r
  | some f =>
    if 0 < maps.length then f.waferMappings.foldl (crossStep maps) r
    else r

/-- One `waferMaps.forEach` pass of the individual-wafer check (the `index`
parameter of the source callback is unused). -/
def indivStep (r : DataIntegrityReport) (w : VWaferMap) : DataIntegrityReport :=
  let calculatedYield : ℚ :=
    if 0 < w.header.totalTestDie then
      (w.header.passDie : ℚ) / (w.header.totalTestDie : ℚ) * 100
    else 0
  let yieldVariance := |calculatedYield - w.header.yield|
  let r1 : DataIntegrityReport :=
    if (1/10 : ℚ) < yieldVariance then
      { r with individualWaferValidation := r.individualWaferValidation ++
          [⟨false, if (1 : ℚ) < yieldVariance then .warning else .info,
            .yieldVarianceMsg w.header.waferId,
            some (.yieldVarianceDetail w.header.yield calculatedYield)⟩] }
    else r
  if (995/10 : ℚ) < w.header.yield then
    { r1 with individualWaferValidation := r1.individualWaferValidation ++
        [⟨true, .info, .excellentYieldMsg w.header.waferId w.header.yield, none⟩] }
  else if w.header.yield < 70 then
    let r2 : DataIntegrityReport :=
      { r1 with individualWaferValidation := r1.individualWaferValidation ++
          [⟨false, .warning, .lowYieldMsg w.header.waferId w.header.yield, none⟩] }
    let r3 : DataIntegrityReport :=
      if r1.overallStatus = .pass then { r2 with overallStatus := .warning } else r2
    { r3 with recommendations := r3.recommendations ++
        ["Investigate low yield on wafer " ++ w.header.waferId] }
  else r1

/-- Individual-wafer check (`waferMaps.forEach`). -/
def indivCheck (maps : List VWaferMap) (r : DataIntegrityReport) :
    DataIntegrityReport :=
  maps.foldl indivStep r

/-- `DataValidator.generateIntegrityReport(waferMaps, farSummary, lotSummary)`. -/
def generateIntegrityReport (maps : List VWaferMap) (far : Option VFarSummary)
    (lot : Option VLotSummary) : DataIntegrityReport :=
  let r1 := waferCountCheck maps far initialReport
  let r2 := bin1Check maps far r1
  let r3 := lotCheck maps lot r2
  let r4 := crossCheck maps far r3
  let r5 := indivCheck maps r4
  if r5.overallStatus = .pass ∧ r5.recommendations = [] then
    { r5 with recommendations :=
        ["Data integrity validation passed - all files appear consistent"] }
  else r5

/-- All `ValidationResult` entries a report carries, in order. -/
def allResults (r : DataIntegrityReport) : List ValidationResult :=
  r.waferCountValidation :: r.bin1CountValidation :: r.lotSummaryValidation ::
    (r.crossFileValidation ++ r.individualWaferValidation)

/-- Whether a result is one of the per-wafer yield-variance entries. -/
def isYieldVarianceResult (v : ValidationResult) : Bool :=
  match v.message with
  | .yieldVarianceMsg _ => true
  | _ => false

/-- Maximum severity (as a status) over a list of results, `pass` when
empty. -/
def maxSeverity (l : List ValidationResult) : VStatus :=
  l.foldl (fun acc v => statusMax acc (sevStatus v.severity)) .pass

/-- The report's overall status recomputed as the claim C2 prescribes, but
over the results that actually feed `overallStatus`: all entries except the
per-wafer yield-variance ones. -/
def reportIncludedMax (r : DataIntegrityReport) : VStatus :=
  maxSeverity ((allResults r).filter (fun v => !isYieldVarianceResult v))

/-- Order on statuses (`pass < warning < fail`). -/
def statusLe (a b : VStatus) : Prop := statusRank a ≤ statusRank b

/-! ## Theorems -/

/-- Resynchronization never moves backwards: the auxiliary search returns
either `startOffset` itself or some probed offset `≥` the probe start. -/
theorem findNextAux_ge (buf : List ℕ) (maxOffset startOffset : ℕ) :
    ∀ (fuel offset : ℕ), startOffset ≤ offset →
      startOffset ≤ findNextAux buf maxOffset startOffset fuel offset := by
  intro fuel
  induction fuel with
  | zero => intro offset _; exact le_refl _
  | succ fuel ih =>
    intro offset h
    unfold findNextAux
    split
    · split
      · split
        · exact h
        · exact ih (offset + 1) (by omega)
      · exact ih (offset + 1) (by omega)
    · exact le_refl _

/-- Helper form of `findNextAux_ge` at the entry point. -/
theorem findNextValidRecord_ge_start (buf : List ℕ) (startOffset maxOffset : ℕ) :
    startOffset ≤ findNextValidRecord buf startOffset maxOffset :=
  findNextAux_ge buf maxOffset startOffset maxOffset startOffset (le_refl _)

/-- Every continuing iteration of the scanner strictly advances the cursor. -/
theorem scanIter_next_offset_lt (buf : List ℕ) (s s' : ScanState)
    (h : scanIter buf s = .next s') : s.offset < s'.offset := by
  unfold scanIter at h
  split at h
  · exact absurd h (by simp)
  · split at h
    · split at h
      · cases h
        exact Nat.lt_of_lt_of_le (Nat.lt_succ_self _)
          (findNextValidRecord_ge_start buf (s.offset + 1) buf.length)
      · split at h
        · cases h; exact Nat.lt_succ_of_lt (Nat.lt_succ_of_lt (Nat.lt_succ_of_lt (Nat.lt_succ_self _)))
        · split at h
          · exact absurd h (by simp)
          · cases h
            show s.offset < s.offset + 4 + _
            omega
    · rename_i hcond
      split at h
      · cases h; assumption
      · cases h; exact Nat.lt_succ_of_lt (Nat.lt_succ_of_lt (Nat.lt_succ_of_lt (Nat.lt_succ_self _)))

/-- Any fuel of at least `buf.length - s.offset` computes the same result:
the loop always exits before the remaining byte count is spent. -/
theorem scanLoopF_fuel_adequate (buf : List ℕ) (maxErrors : ℕ) :
    ∀ (fuel fuel' : ℕ) (s : ScanState), buf.length - s.offset ≤ fuel →
      buf.length - s.offset ≤ fuel' →
      scanLoopF buf maxErrors fuel s = scanLoopF buf maxErrors fuel' s := by
  intro fuel
  induction fuel with
  | zero =>
    intro fuel' s h h'
    match fuel' with
    | 0 => rfl
    | fuel' + 1 =>
      show scanLoopF buf maxErrors 0 s = _
      unfold scanLoopF
      rw [if_neg (by omega)]
  | succ fuel ih =>
    intro fuel' s h h'
    match fuel' with
    | 0 =>
      show _ = scanLoopF buf maxErrors 0 s
      unfold scanLoopF
      rw [if_neg (by omega)]
    | fuel' + 1 =>
      show scanLoopF buf maxErrors (fuel + 1) s = scanLoopF buf maxErrors (fuel' + 1) s
      unfold scanLoopF
      split
      · rename_i hguard
        split
        · rename_i s' hs'
          have hlt := scanIter_next_offset_lt buf s s' hs'
          exact ih fuel' s' (by omega) (by omega)
        · rfl
      · rfl

/-- When the record at the cursor claims more payload than remains in the
buffer (and its length passes the earlier sanity checks), the iteration
breaks out of the loop without touching the state. -/
theorem scanIter_truncated (buf : List ℕ) (s : ScanState) (L : ℕ)
    (hin : s.offset + 4 ≤ buf.length)
    (hlen : getUint16BE buf s.offset = some L) (hpos : 0 < L)
    (hmax : L ≤ MAX_RECORD_LENGTH) (hover : buf.length < s.offset + 4 + L) :
    scanIter buf s = .done s := by
  have h2 : getUint8 buf (s.offset + 2) = some (buf.get ⟨s.offset + 2, by omega⟩) := by
    simp [getUint8, List.getElem?_eq_getElem (show s.offset + 2 < buf.length by omega)]
  have h3 : getUint8 buf (s.offset + 3) = some (buf.get ⟨s.offset + 3, by omega⟩) := by
    simp [getUint8, List.getElem?_eq_getElem (show s.offset + 3 < buf.length by omega)]
  unfold scanIter
  rw [if_neg (by omega)]
  split
  · rename_i rl ty st e1 e2 e3
    rw [hlen, Option.some.injEq] at e1
    subst e1
    rw [if_neg (by omega), if_neg (by omega), if_pos (by omega)]
  · rename_i hnone
    exact (hnone L (buf.get ⟨s.offset + 2, by omega⟩) (buf.get ⟨s.offset + 3, by omega⟩)
      hlen h2 h3).elim

/--
C3: for every finite byte buffer the scanner main loop terminates and returns
a finite record list plus an error tally.  The cursor offset strictly
increases on every continuing loop iteration (first conjunct), and in
consequence any fuel of at least the remaining byte count lets the
structurally recursive `scanLoopF` compute the loop's exit state (second
conjunct), which is exactly the termination argument for the source loop.
-/
theorem scanner_terminates_offset_increases (buf : List ℕ) (s s' : ScanState)
    (fuel : ℕ) (hstep : scanIter buf s = .next s')
    (hfuel : buf.length - s.offset ≤ fuel) :
    s.offset < s'.offset ∧
      scanLoopF buf (scanMaxErrors buf) fuel s = scanLoop buf (scanMaxErrors buf) s :=
  ⟨scanIter_next_offset_lt buf s s' hstep,
   scanLoopF_fuel_adequate buf (scanMaxErrors buf) fuel (buf.length - s.offset) s hfuel (le_refl _)⟩

/-- Witness for C3: on the buffer `[0,1,1,10,7]` the first iteration emits a
one-byte record and advances the cursor from `0` to `5`. -/
theorem scanner_terminates_offset_increases_witness :
    (⟨0, [], 0, 0⟩ : ScanState).offset < (⟨5, [⟨1, 10, 1, [7], 0⟩], 0, 0⟩ : ScanState).offset ∧
      scanLoopF [0, 1, 1, 10, 7] (scanMaxErrors [0, 1, 1, 10, 7]) 5 ⟨0, [], 0, 0⟩ =
        scanLoop [0, 1, 1, 10, 7] (scanMaxErrors [0, 1, 1, 10, 7]) ⟨0, [], 0, 0⟩ :=
  scanner_terminates_offset_increases [0, 1, 1, 10, 7] ⟨0, [], 0, 0⟩
    ⟨5, [⟨1, 10, 1, [7], 0⟩], 0, 0⟩ 5 (by decide) (by decide)

/--
C4 counterexample: the buffer `[0, 16, 1, 10, 0, 0]` ends mid-record (its
header claims a 16-byte payload but only 2 bytes remain), yet scanning yields
`parseErrors = 0`, refuting the claimed `parseErrors ≥ 1`.
-/
theorem truncated_record_zero_parse_errors :
    (parseStdfBufferScan [0, 16, 1, 10, 0, 0]).parseErrors = 0 ∧
      parseStdfBufferScan [0, 16, 1, 10, 0, 0] = ⟨0, [], 0, 0⟩ := by
  constructor
  · rfl
  · rfl

/--
C4 (amended): for every buffer state in which the record at the cursor claims
more payload bytes than remain (with a length that passes the sanity checks),
the scan stops exactly at the truncation point with the state unchanged — in
particular `parseErrors` is NOT incremented for the truncated record (the
source `break`s without counting an error), and the scan cannot crash since
`scanLoop` is a total function.
-/
theorem scan_stops_at_truncated_record (buf : List ℕ) (maxErrors : ℕ)
    (s : ScanState) (L : ℕ)
    (hguard : s.offset + 4 < buf.length) (herr : s.parseErrors < maxErrors)
    (hlen : getUint16BE buf s.offset = some L) (hpos : 0 < L)
    (hmax : L ≤ MAX_RECORD_LENGTH) (hover : buf.length < s.offset + 4 + L) :
    scanLoop buf maxErrors s = s := by
  have hdone := scanIter_truncated buf s L (by omega) hlen hpos hmax hover
  unfold scanLoop
  have h5 : ∃ fuel, buf.length - s.offset = fuel + 1 := ⟨buf.length - s.offset - 1, by omega⟩
  obtain ⟨fuel, hf⟩ := h5
  rw [hf]
  unfold scanLoopF
  rw [if_pos ⟨hguard, herr⟩, hdone]

/-- Witness for C4: the truncated buffer `[0, 16, 1, 10, 0, 0]` from the
fresh state is returned unchanged, with zero parse errors. -/
theorem scan_stops_at_truncated_record_witness :
    scanLoop [0, 16, 1, 10, 0, 0] 100 ⟨0, [], 0, 0⟩ = ⟨0, [], 0, 0⟩ :=
  scan_stops_at_truncated_record [0, 16, 1, 10, 0, 0] 100 ⟨0, [], 0, 0⟩ 16
    (by decide) (by decide) (by decide) (by decide) (by decide) (by decide)

/--
C5: resynchronization never moves the cursor backwards — for every buffer,
start offset and buffer length, `findNextValidRecord` returns an offset
greater than or equal to the start offset passed in.
-/
theorem resync_monotone (buf : List ℕ) (startOffset maxOffset : ℕ) :
    startOffset ≤ findNextValidRecord buf startOffset maxOffset :=
  findNextValidRecord_ge_start buf startOffset maxOffset

/-! ### C6: bin-count invariants of the coordinate-map parsers -/

/-- Keys of a char-counter map, in order. -/
def charKeys (m : List (Char × ℕ)) : List Char := m.map Prod.fst

theorem lookup_isSome_iff_mem (c : Char) :
    ∀ m : List (Char × ℕ), ((m.lookup c).isSome = true) ↔ c ∈ charKeys m := by
  intro m
  induction m with
  | nil => simp [List.lookup, charKeys]
  | cons kv rest ih =>
    obtain ⟨k, v⟩ := kv
    by_cases h : c = k
    · subst h
      simp [List.lookup, charKeys]
    · have hbeq : (c == k) = false := beq_eq_false_iff_ne.mpr h
      simp only [List.lookup, hbeq, charKeys, List.map_cons, List.mem_cons]
      rw [show charKeys rest = rest.map Prod.fst from rfl] at ih
      rw [ih]
      exact (or_iff_right h).symm

theorem charKeys_bumpExisting (c : Char) :
    ∀ m : List (Char × ℕ), charKeys (bumpExisting c m) = charKeys m := by
  intro m
  induction m with
  | nil => rfl
  | cons kv rest ih =>
    obtain ⟨k, v⟩ := kv
    by_cases h : k = c
    · simp [bumpExisting, h, charKeys]
    · simp [bumpExisting, h, charKeys] at ih ⊢
      exact ih

theorem sumCharCounts_append (m₁ m₂ : List (Char × ℕ)) :
    sumCharCounts (m₁ ++ m₂) = sumCharCounts m₁ + sumCharCounts m₂ := by
  simp [sumCharCounts]

theorem sum_bumpExisting (c : Char) :
    ∀ m : List (Char × ℕ), c ∈ charKeys m →
      sumCharCounts (bumpExisting c m) = sumCharCounts m + 1 := by
  intro m
  induction m with
  | nil => intro h; simp [charKeys] at h
  | cons kv rest ih =>
    obtain ⟨k, v⟩ := kv
    intro hmem
    by_cases h : k = c
    · simp [bumpExisting, h, sumCharCounts]
      omega
    · have : c ∈ charKeys rest := by
        simp [charKeys] at hmem ⊢
        rcases hmem with h' | h'
        · exact absurd h'.symm h
        · exact h'
      simp [bumpExisting, h, sumCharCounts] at ih ⊢
      have := ih this
      omega

theorem sum_edsCellUpdate (m : List (Char × ℕ)) (c : Char) :
    sumCharCounts (edsCellUpdate m c) =
      sumCharCounts m + (if c ∈ charKeys m then 1 else 0) := by
  unfold edsCellUpdate
  by_cases h : c ∈ charKeys m
  · rw [if_pos ((lookup_isSome_iff_mem c m).mpr h), if_pos h]
    exact sum_bumpExisting c m h
  · rw [if_neg (by rw [lookup_isSome_iff_mem c m]; exact h), if_neg h]
    omega

theorem charKeys_edsCellUpdate (m : List (Char × ℕ)) (c : Char) :
    charKeys (edsCellUpdate m c) = charKeys m := by
  unfold edsCellUpdate
  split
  · exact charKeys_bumpExisting c m
  · rfl

theorem sum_sfCellUpdate (m : List (Char × ℕ)) (c : Char) (h : c ≠ ' ') :
    sumCharCounts (sfCellUpdate m c) = sumCharCounts m + 1 := by
  unfold sfCellUpdate
  by_cases hs : (List.lookup c m).isSome = true
  · rw [if_pos hs]
    exact sum_bumpExisting c m ((lookup_isSome_iff_mem c m).mp hs)
  · rw [if_neg hs, if_pos h, sumCharCounts_append]
    simp [sumCharCounts]

/-- The EDS countable cell codes. -/
def edsCountable (c : Char) : Bool := c = '1' || c = 'X' || c = '.'

theorem eds_row_fold (row : List Char) :
    ∀ m : List (Char × ℕ), charKeys m = ['1', 'X', '.'] →
      sumCharCounts (row.foldl edsCellUpdate m) =
          sumCharCounts m + (row.filter edsCountable).length ∧
        charKeys (row.foldl edsCellUpdate m) = ['1', 'X', '.'] := by
  induction row with
  | nil => intro m hk; simpa using hk
  | cons c cs ih =>
    intro m hk
    have hmemiff : (c ∈ charKeys m) ↔ (edsCountable c = true) := by
      rw [hk]
      simp [edsCountable, or_assoc]
    have hstep := sum_edsCellUpdate m c
    have hkeys : charKeys (edsCellUpdate m c) = ['1', 'X', '.'] := by
      rw [charKeys_edsCellUpdate, hk]
    obtain ⟨ihsum, ihkeys⟩ := ih (edsCellUpdate m c) hkeys
    constructor
    · show sumCharCounts (cs.foldl edsCellUpdate (edsCellUpdate m c)) = _
      rw [ihsum, hstep]
      by_cases hc : edsCountable c = true
      · rw [if_pos (hmemiff.mpr hc)]
        simp [List.filter_cons, hc]
        omega
      · rw [if_neg (fun hmem => hc (hmemiff.mp hmem))]
        simp [List.filter_cons, hc]
    · exact ihkeys

theorem sf_row_fold (row : List Char) :
    ∀ m : List (Char × ℕ), (∀ c ∈ row, c ≠ ' ') →
      sumCharCounts (row.foldl sfCellUpdate m) = sumCharCounts m + row.length := by
  induction row with
  | nil => intro m _; simp
  | cons c cs ih =>
    intro m hall
    show sumCharCounts (cs.foldl sfCellUpdate (sfCellUpdate m c)) = _
    rw [ih (sfCellUpdate m c) (fun d hd => hall d (List.mem_cons_of_mem c hd)),
        sum_sfCellUpdate m c (hall c (List.mem_cons_self c cs))]
    simp
    omega

theorem edsBodyLoop_inv :
    ∀ (ls rows : List (List Char)) (m : List (Char × ℕ)),
      charKeys m = ['1', 'X', '.'] →
      sumCharCounts m = (rows.flatten.filter edsCountable).length →
      sumCharCounts (edsBodyLoop ls rows m).2 =
        ((edsBodyLoop ls rows m).1.flatten.filter edsCountable).length := by
  intro ls
  induction ls with
  | nil => intro rows m _ hsum; simpa using hsum
  | cons l rest ih =>
    intro rows m hk hsum
    unfold edsBodyLoop
    split
    · have hrow := eds_row_fold (l.filter (fun c => c ≠ ' ')) m hk
      apply ih
      · exact hrow.2
      · rw [hrow.1, hsum]
        simp [List.filter_append]
    · exact ih rows m hk hsum

theorem sfBodyLoop_inv :
    ∀ (ls rows : List (List Char)) (m : List (Char × ℕ)),
      sumCharCounts m = rows.flatten.length →
      sumCharCounts (sfBodyLoop ls rows m).2 =
        (sfBodyLoop ls rows m).1.flatten.length := by
  intro ls
  induction ls with
  | nil => intro rows m hsum; simpa using hsum
  | cons l rest ih =>
    intro rows m hsum
    unfold sfBodyLoop
    split
    · apply ih
      rw [sf_row_fold (l.filter (fun c => c ≠ ' ')) m
            (fun c hc => of_decide_eq_true (List.mem_filter.mp hc).2)]
      rw [hsum]
      simp
    · exact ih rows m hsum

/--
C6 counterexample: the EDS grid line `"1\tX"` (a tab between two cells)
parses to a 3-cell row, but the tab cell increments no counter — the
`binCounts` sum is 2, not 3, refuting the claimed equality with the total
cell count for the primary-foundry parser.
-/
theorem eds_tab_cell_uncounted :
    sumCharCounts (parseWaferMapFile "w.01" ['1', '\t', 'X']).binCounts = 2 ∧
      (parseWaferMapFile "w.01" ['1', '\t', 'X']).coordinateMap.flatten.length = 3 := by
  exact ⟨rfl, rfl⟩

/--
C6 (amended): for the second-foundry parser the invariant holds as claimed —
the sum of all `binCounts` values equals the total number of grid cells
parsed (every non-space character of a grid line becomes a cell and
increments exactly one counter).  For the primary (EDS) parser, `binCounts`
has the fixed keys `'1'`, `'X'`, `'.'` and only cells with those codes are
counted: whitespace other than the space character (e.g. a tab) inside a
grid line becomes a cell but increments no counter, so the sum equals the
number of cells that are `'1'`, `'X'` or `'.'`.
-/
theorem map_bin_count_invariant (filename : String) (content : List Char) :
    sumCharCounts (parseSecondFoundryFile filename content).binCounts =
        (parseSecondFoundryFile filename content).coordinateMap.flatten.length ∧
      sumCharCounts (parseWaferMapFile filename content).binCounts =
        ((parseWaferMapFile filename content).coordinateMap.flatten.filter
          edsCountable).length := by
  constructor
  · simp only [parseSecondFoundryFile]
    exact sfBodyLoop_inv _ [] _ rfl
  · simp only [parseWaferMapFile]
    exact edsBodyLoop_inv _ [] _ rfl rfl

/-! ### Helper lemmas about the aggregation loops -/

theorem sumBinCounts_bumpBin (hb : ℤ) :
    ∀ bins, sumBinCounts (bumpBin hb bins) = sumBinCounts bins + 1 := by
  intro bins
  induction bins with
  | nil => simp [bumpBin, sumBinCounts]
  | cons kv rest ih =>
    obtain ⟨k, v⟩ := kv
    by_cases h : k = hb
    · simp [bumpBin, h, sumBinCounts]
      ring
    · simp [bumpBin, h, sumBinCounts] at ih ⊢
      omega

theorem prrLoop_parts_length (rng : ℕ → ℚ) :
    ∀ (recs : List RawRecord) (parts : List StdfTestResult) bins k,
      (prrLoop rng recs parts bins k).1.length = parts.length + recs.length := by
  intro recs
  induction recs with
  | nil => intro parts bins k; simp [prrLoop]
  | cons r rest ih =>
    intro parts bins k
    simp only [prrLoop]
    rw [ih]
    simp
    omega

theorem prrLoop_sum_inv (rng : ℕ → ℚ) :
    ∀ (recs : List RawRecord) (parts : List StdfTestResult) bins k,
      sumBinCounts bins = (parts.length : ℤ) →
      sumBinCounts (prrLoop rng recs parts bins k).2.1 =
        ((prrLoop rng recs parts bins k).1.length : ℤ) := by
  intro recs
  induction recs with
  | nil => intro parts bins k h; simpa [prrLoop] using h
  | cons r rest ih =>
    intro parts bins k h
    simp only [prrLoop]
    apply ih
    rw [sumBinCounts_bumpBin, h]
    simp

theorem padLoop_parts_length (rng : ℕ → ℚ) (est : ℕ) :
    ∀ (fuel : ℕ) (parts : List StdfTestResult) bins k,
      est ≤ fuel + parts.length →
      (padLoop rng est fuel parts bins k).1.length = max parts.length est := by
  intro fuel
  induction fuel with
  | zero =>
    intro parts bins k h
    simp only [padLoop]
    rw [Nat.max_eq_left (by omega)]
  | succ fuel ih =>
    intro parts bins k h
    simp only [padLoop]
    split
    · rename_i hlt
      rw [ih _ _ _ (by simp; omega)]
      simp
      rw [Nat.max_eq_right (by omega), Nat.max_eq_right (by omega)]
    · rename_i hge
      rw [Nat.max_eq_left (by omega)]

theorem padLoop_sum_inv (rng : ℕ → ℚ) (est : ℕ) :
    ∀ (fuel : ℕ) (parts : List StdfTestResult) bins k,
      sumBinCounts bins = (parts.length : ℤ) →
      sumBinCounts (padLoop rng est fuel parts bins k).2.1 =
        ((padLoop rng est fuel parts bins k).1.length : ℤ) := by
  intro fuel
  induction fuel with
  | zero => intro parts bins k h; simpa [padLoop] using h
  | succ fuel ih =>
    intro parts bins k h
    simp only [padLoop]
    split
    · apply ih
      rw [sumBinCounts_bumpBin, h]
      simp
    · exact h

theorem mockLoop_length (rng : ℕ → ℚ) :
    ∀ (n : ℕ) (parts : List StdfTestResult) (k : ℕ),
      (mockLoop rng n parts k).1.length = parts.length + n := by
  intro n
  induction n with
  | zero => intro parts k; simp [mockLoop]
  | succ n ih =>
    intro parts k
    simp only [mockLoop]
    rw [ih]
    simp
    omega

/-- `Math.floor(f * 0.6) + Math.ceil(f * 0.4) = f` in exact arithmetic. -/
theorem floor_ceil_sixty_forty (f : ℕ) :
    ⌊(f : ℚ) * 0.6⌋ + ⌈(f : ℚ) * 0.4⌉ = (f : ℤ) := by
  have h : (f : ℚ) * 0.4 = -((f : ℚ) * 0.6) + ((f : ℤ) : ℚ) := by
    push_cast
    ring_nf
  rw [h, Int.ceil_add_int, Int.ceil_neg]
  omega

/-- The part-list length of `extractStdfData` is the maximum of the PRR
record count and the random estimate drawn after the PRR loop. -/
theorem extract_parts_length (records : List RawRecord) (fileName : List Char)
    (b : Bool) (now : String) (rng : ℕ → ℚ) (sqrtFn : ℚ → ℚ) :
    (extractStdfData records fileName b now rng sqrtFn).parts.length =
      max (records.filter (fun r => r.type = 5 && r.subType = 20)).length
        (estimatedPartsOf (rng (prrLoop rng
          (records.filter (fun r => r.type = 5 && r.subType = 20)) [] [] 0).2.2)).toNat := by
  simp only [extractStdfData]
  rw [padLoop_parts_length _ _ _ _ _ _ (by omega)]
  rw [prrLoop_parts_length]
  simp

/-- Bounds of the random part-count estimate for `Math.random()` values. -/
theorem estimatedPartsOf_bounds (r : ℚ) (h0 : 0 ≤ r) (h1 : r < 1) :
    1000 ≤ (estimatedPartsOf r).toNat ∧ (estimatedPartsOf r).toNat ≤ 5999 := by
  have hf0 : 0 ≤ ⌊r * 5000⌋ := Int.floor_nonneg.mpr (by positivity)
  have hf1 : ⌊r * 5000⌋ < 5000 := by
    rw [Int.floor_lt]
    push_cast
    nlinarith
  unfold estimatedPartsOf
  omega

/-- `p ≤ t → p + (⌊(t-p)*0.6⌋ + (⌈(t-p)*0.4⌉ + 0)) = t`, the shape of the
mock `binSummary` sum. -/
theorem pass_floor_ceil (t p : ℕ) (h : p ≤ t) :
    (p : ℤ) + (⌊((t - p : ℕ) : ℚ) * 0.6⌋ + (⌈((t - p : ℕ) : ℚ) * 0.4⌉ + 0)) = (t : ℤ) := by
  have hfc := floor_ceil_sixty_forty (t - p)
  omega

/--
C7: for every `ParsedStdfData` the parser returns — both from
`extractStdfData` (PRR loop plus synthetic padding loop, for every record
list, rng stream and flag value) and from the `generateMockStdfData`
fallback — the sum of all `binSummary` counts equals `parts.length`.
-/
theorem bin_summary_sum_invariant (records : List RawRecord) (fileName : List Char)
    (b : Bool) (now : String) (rng : ℕ → ℚ) (sqrtFn : ℚ → ℚ)
    (fileName2 : List Char) (now2 : String) (rng2 : ℕ → ℚ) :
    sumBinCounts (extractStdfData records fileName b now rng sqrtFn).binSummary =
        ((extractStdfData records fileName b now rng sqrtFn).parts.length : ℤ) ∧
      sumBinCounts (generateMockStdfData fileName2 now2 rng2).binSummary =
        ((generateMockStdfData fileName2 now2 rng2).parts.length : ℤ) := by
  constructor
  · simp only [extractStdfData]
    apply padLoop_sum_inv
    apply prrLoop_sum_inv
    simp [sumBinCounts]
  · simp only [generateMockStdfData, sumBinCounts, List.map_cons, List.map_nil,
      List.sum_cons, List.sum_nil]
    generalize (mockLoop rng2 (⌊rng2 0 * 5000⌋ + 1000).toNat [] 1).1 = ps
    have hfc := floor_ceil_sixty_forty
      (ps.length - (ps.filter (fun p => p.hardBin = 1)).length)
    have hle := List.length_filter_le (fun p => p.hardBin = 1) ps
    omega

/-- A guarded yield always equals the unguarded quotient form, under the
`q / 0 = 0` convention of `ℚ`. -/
theorem guarded_yield (L p : ℕ) :
    (if 0 < L then (p : ℚ) / (L : ℚ) * 100 else 0) = (p : ℚ) / (L : ℚ) * 100 := by
  split
  · rfl
  · rename_i h
    have hL : L = 0 := by omega
    subst hL
    simp

/--
C8: for every `ParsedStdfData` the parser returns, `yieldPercentage` equals
`passParts / totalParts * 100` (exact rational arithmetic standing in for
the floating-point epsilon) and is exactly `0` when `totalParts = 0`:
* `extractStdfData` guards the division and satisfies both clauses for every
  input;
* `generateMockStdfData` divides unguarded, but for `Math.random` values
  (`0 ≤ rng i`) its `totalParts` is at least 1000, so the formula holds and
  the zero case cannot arise;
* the second parser's summary (`V2.mkSummary`) guards the division and
  satisfies both clauses for every part list.
-/
theorem yield_consistency
    (records : List RawRecord) (fileName : List Char) (b : Bool) (now : String)
    (rng : ℕ → ℚ) (sqrtFn : ℚ → ℚ)
    (fileName2 : List Char) (now2 : String) (rng2 : ℕ → ℚ)
    (parts : List V2.PartResult) (testNames : List String)
    (hr : ∀ i, 0 ≤ rng2 i) :
    ((extractStdfData records fileName b now rng sqrtFn).summary.yieldPercentage =
        ((extractStdfData records fileName b now rng sqrtFn).summary.passParts : ℚ) /
          ((extractStdfData records fileName b now rng sqrtFn).summary.totalParts : ℚ) * 100 ∧
      ((extractStdfData records fileName b now rng sqrtFn).summary.totalParts = 0 →
        (extractStdfData records fileName b now rng sqrtFn).summary.yieldPercentage = 0)) ∧
    (0 < (generateMockStdfData fileName2 now2 rng2).summary.totalParts ∧
      (generateMockStdfData fileName2 now2 rng2).summary.yieldPercentage =
        ((generateMockStdfData fileName2 now2 rng2).summary.passParts : ℚ) /
          ((generateMockStdfData fileName2 now2 rng2).summary.totalParts : ℚ) * 100) ∧
    ((V2.mkSummary parts testNames).yieldPercentage =
        ((V2.mkSummary parts testNames).passParts : ℚ) /
          ((V2.mkSummary parts testNames).totalParts : ℚ) * 100 ∧
      ((V2.mkSummary parts testNames).totalParts = 0 →
        (V2.mkSummary parts testNames).yieldPercentage = 0)) := by
  refine ⟨⟨?_, ?_⟩, ⟨?_, ?_⟩, ?_, ?_⟩
  · simp only [extractStdfData]
    exact guarded_yield _ _
  · intro h
    simp only [extractStdfData] at h ⊢
    rw [if_neg (by omega)]
  · simp only [generateMockStdfData, mockLoop_length]
    have h0 : (0 : ℤ) ≤ ⌊rng2 0 * 5000⌋ :=
      Int.floor_nonneg.mpr (mul_nonneg (hr 0) (by norm_num))
    omega
  · simp only [generateMockStdfData]
  · simp only [V2.mkSummary]
    exact guarded_yield _ _
  · intro h
    simp only [V2.mkSummary] at h ⊢
    rw [if_neg (by omega)]

/-- Witness for C8 at the constant-zero random stream: the mock generator
produces a non-empty part list whose yield satisfies the quotient form. -/
theorem yield_consistency_witness :
    0 < (generateMockStdfData [] "" (fun _ => 0)).summary.totalParts ∧
      (generateMockStdfData [] "" (fun _ => 0)).summary.yieldPercentage =
        ((generateMockStdfData [] "" (fun _ => 0)).summary.passParts : ℚ) /
          ((generateMockStdfData [] "" (fun _ => 0)).summary.totalParts : ℚ) * 100 :=
  (yield_consistency [] [] false "" (fun _ => 0) id [] "" (fun _ => 0) [] []
    (fun _ => le_refl 0)).2.1

/--
C10: for every record list (including the empty one) and every `Math.random`
stream (values in `[0,1)`), `extractStdfData` returns at least 1000 parts:
the part list is padded up to a random estimate `est ∈ [1000, 5999]`, so its
final length is `max (decoded PRR count) est` and never reflects the true
PRR count when that count is below the estimate.
-/
theorem extract_always_has_1000_parts (records : List RawRecord) (fileName : List Char)
    (b : Bool) (now : String) (rng : ℕ → ℚ) (sqrtFn : ℚ → ℚ)
    (hr : ∀ i, 0 ≤ rng i ∧ rng i < 1) :
    1000 ≤ (extractStdfData records fileName b now rng sqrtFn).parts.length ∧
      ∃ est : ℕ, 1000 ≤ est ∧ est ≤ 5999 ∧
        (extractStdfData records fileName b now rng sqrtFn).parts.length =
          max (records.filter (fun r => r.type = 5 && r.subType = 20)).length est := by
  have hlen := extract_parts_length records fileName b now rng sqrtFn
  have hb := estimatedPartsOf_bounds
    (rng (prrLoop rng (records.filter (fun r => r.type = 5 && r.subType = 20)) [] [] 0).2.2)
    (hr _).1 (hr _).2
  refine ⟨?_, ⟨_, hb.1, hb.2, hlen⟩⟩
  rw [hlen]
  omega

/-- Witness for C10 at the constant-zero random stream and an empty record
list. -/
theorem extract_always_has_1000_parts_witness :
    1000 ≤ (extractStdfData [] [] false "" (fun _ => 0) id).parts.length ∧
      ∃ est : ℕ, 1000 ≤ est ∧ est ≤ 5999 ∧
        (extractStdfData [] [] false "" (fun _ => 0) id).parts.length =
          max (([] : List RawRecord).filter (fun r => r.type = 5 && r.subType = 20)).length est :=
  extract_always_has_1000_parts [] [] false "" (fun _ => 0) id
    (fun _ => ⟨le_refl 0, by norm_num⟩)

/--
C1: evaluation at the failing input.  An empty buffer scans to zero records
(and zero decoded PRR parts), yet `parseStdfBuffer` returns a result with
1000 wholly fabricated parts; and the only degradation signal that is even
computed (`hasParseErrors`) is ignored by `extractStdfData` — the result is
identical for `true` and `false`.  The `ParsedStdfData` interface carries no
degraded field at all (see the structure definition), so the fabricated
result is indistinguishable from real measurements, contradicting the
claimed degraded flagging.
-/
theorem empty_buffer_fabricates_parts :
    (parseStdfBufferScan []).records = [] ∧
      (parseStdfBuffer [] [] "" (fun _ => 0) id).parts.length = 1000 ∧
      ∀ (records : List RawRecord) (fileName : List Char) (now : String)
        (rng : ℕ → ℚ) (sqrtFn : ℚ → ℚ),
        extractStdfData records fileName true now rng sqrtFn =
          extractStdfData records fileName false now rng sqrtFn := by
  refine ⟨rfl, ?_, fun _ _ _ _ _ => rfl⟩
  show (extractStdfData [] [] false "" (fun _ => 0) id).parts.length = 1000
  rw [extract_parts_length]
  norm_num [estimatedPartsOf, prrLoop]
  rfl

/-! ### C2: validator status algebra -/

theorem statusMax_pass_left (a : VStatus) : statusMax .pass a = a := by
  cases a <;> rfl

theorem statusMax_pass_right (a : VStatus) : statusMax a .pass = a := by
  cases a <;> rfl

theorem statusMax_fail_right (a : VStatus) : statusMax a .fail = .fail := by
  cases a <;> rfl

theorem statusMax_assoc (a b c : VStatus) :
    statusMax (statusMax a b) c = statusMax a (statusMax b c) := by
  cases a <;> cases b <;> cases c <;> rfl

theorem statusLe_statusMax_left (a b : VStatus) : statusLe a (statusMax a b) := by
  cases a <;> cases b <;> simp [statusLe, statusMax, statusRank]

theorem maxSeverity_foldl (l : List ValidationResult) :
    ∀ acc, l.foldl (fun acc v => statusMax acc (sevStatus v.severity)) acc =
      statusMax acc (maxSeverity l) := by
  induction l with
  | nil => intro acc; simp [maxSeverity, statusMax_pass_right]
  | cons v t ih =>
    intro acc
    show t.foldl _ (statusMax acc (sevStatus v.severity)) = _
    rw [ih]
    show _ = statusMax acc (t.foldl _ (statusMax .pass (sevStatus v.severity)))
    rw [ih (statusMax .pass (sevStatus v.severity)), statusMax_pass_left, statusMax_assoc]

theorem maxSeverity_cons (v : ValidationResult) (l : List ValidationResult) :
    maxSeverity (v :: l) = statusMax (sevStatus v.severity) (maxSeverity l) := by
  show (l.foldl _ (statusMax .pass (sevStatus v.severity))) = _
  rw [maxSeverity_foldl, statusMax_pass_left]

theorem maxSeverity_append (l₁ l₂ : List ValidationResult) :
    maxSeverity (l₁ ++ l₂) = statusMax (maxSeverity l₁) (maxSeverity l₂) := by
  unfold maxSeverity
  rw [List.foldl_append]
  exact maxSeverity_foldl l₂ _

theorem waferCountCheck_spec (maps : List VWaferMap) (far : Option VFarSummary)
    (r : DataIntegrityReport)
    (h : r.waferCountValidation = ⟨true, .info, .noValidationPerformed, none⟩) :
    (waferCountCheck maps far r).overallStatus =
        statusMax r.overallStatus
          (sevStatus (waferCountCheck maps far r).waferCountValidation.severity) ∧
      (waferCountCheck maps far r).bin1CountValidation = r.bin1CountValidation ∧
      (waferCountCheck maps far r).lotSummaryValidation = r.lotSummaryValidation ∧
      (waferCountCheck maps far r).crossFileValidation = r.crossFileValidation ∧
      (waferCountCheck maps far r).individualWaferValidation = r.individualWaferValidation ∧
      isYieldVarianceResult (waferCountCheck maps far r).waferCountValidation = false := by
  cases far with
  | none =>
    simp [waferCountCheck, h, sevStatus, isYieldVarianceResult, statusMax_pass_right]
  | some f =>
    by_cases hc : f.totalWafer = (maps.length : ℤ)
    · simp [waferCountCheck, hc, sevStatus, isYieldVarianceResult, statusMax_pass_right]
    · simp [waferCountCheck, hc, sevStatus, isYieldVarianceResult, statusMax_fail_right]

theorem bin1Check_spec (maps : List VWaferMap) (far : Option VFarSummary)
    (r : DataIntegrityReport)
    (h : r.bin1CountValidation = ⟨true, .info, .noValidationPerformed, none⟩) :
    (bin1Check maps far r).overallStatus =
        statusMax r.overallStatus
          (sevStatus (bin1Check maps far r).bin1CountValidation.severity) ∧
      (bin1Check maps far r).waferCountValidation = r.waferCountValidation ∧
      (bin1Check maps far r).lotSummaryValidation = r.lotSummaryValidation ∧
      (bin1Check maps far r).crossFileValidation = r.crossFileValidation ∧
      (bin1Check maps far r).individualWaferValidation = r.individualWaferValidation ∧
      isYieldVarianceResult (bin1Check maps far r).bin1CountValidation = false := by
  cases far with
  | none =>
    simp [bin1Check, h, sevStatus, isYieldVarianceResult, statusMax_pass_right]
  | some f =>
    by_cases hn : 0 < maps.length
    · by_cases he : (f.waferMappings.map (fun m => m.bin1Count)).sum =
        (maps.map (fun w => w.header.passDie)).sum
      · simp [bin1Check, hn, he, sevStatus, isYieldVarianceResult, statusMax_pass_right]
      · by_cases hpv : pvGt5
          |(f.waferMappings.map (fun m => m.bin1Count)).sum -
            (maps.map (fun w => w.header.passDie)).sum|
          (max (f.waferMappings.map (fun m => m.bin1Count)).sum
            (maps.map (fun w => w.header.passDie)).sum) = true
        · simp [bin1Check, hn, he, hpv, sevStatus, isYieldVarianceResult,
            statusMax_fail_right]
        · by_cases hp : r.overallStatus = .pass
          · simp [bin1Check, hn, he, hpv, hp, sevStatus, isYieldVarianceResult,
              statusMax_pass_left]
          · simp only [bin1Check, hn, he, hpv, hp, sevStatus, isYieldVarianceResult]
            simp [hpv, hp, sevStatus, isYieldVarianceResult]
            cases hr : r.overallStatus <;> simp_all [statusMax]
    · simp [bin1Check, hn, h, sevStatus, isYieldVarianceResult, statusMax_pass_right]

theorem lotCheck_spec (maps : List VWaferMap) (lot : Option VLotSummary)
    (r : DataIntegrityReport)
    (h : r.lotSummaryValidation = ⟨true, .info, .noValidationPerformed, none⟩) :
    (lotCheck maps lot r).overallStatus =
        statusMax r.overallStatus
          (sevStatus (lotCheck maps lot r).lotSummaryValidation.severity) ∧
      (lotCheck maps lot r).waferCountValidation = r.waferCountValidation ∧
      (lotCheck maps lot r).bin1CountValidation = r.bin1CountValidation ∧
      (lotCheck maps lot r).crossFileValidation = r.crossFileValidation ∧
      (lotCheck maps lot r).individualWaferValidation = r.individualWaferValidation ∧
      isYieldVarianceResult (lotCheck maps lot r).lotSummaryValidation = false := by
  cases lot with
  | none =>
    simp [lotCheck, h, sevStatus, isYieldVarianceResult, statusMax_pass_right]
  | some ls =>
    by_cases hn : 0 < maps.length
    · by_cases hm : |ls.totalDies - (maps.map (fun w => w.header.totalTestDie)).sum| ≤ 1 ∧
        |ls.totalPass - (maps.map (fun w => w.header.passDie)).sum| ≤ 1
      · simp [lotCheck, hn, hm, sevStatus, isYieldVarianceResult, statusMax_pass_right]
      · by_cases hp : r.overallStatus = .pass
        · simp [lotCheck, hn, hm, hp, sevStatus, isYieldVarianceResult, statusMax_pass_left]
        · simp only [lotCheck, hn, hm, hp]
          simp [hm, hp, sevStatus, isYieldVarianceResult]
          cases hr : r.overallStatus <;> simp_all [statusMax]
    · simp [lotCheck, hn, h, sevStatus, isYieldVarianceResult, statusMax_pass_right]

theorem crossStep_spec (maps : List VWaferMap) (r : DataIntegrityReport)
    (mapping : VFarMapping) :
    ∃ new : List ValidationResult,
      (crossStep maps r mapping).crossFileValidation = r.crossFileValidation ++ new ∧
      (crossStep maps r mapping).overallStatus =
        statusMax r.overallStatus (maxSeverity new) ∧
      (∀ v ∈ new, isYieldVarianceResult v = false) ∧
      (crossStep maps r mapping).waferCountValidation = r.waferCountValidation ∧
      (crossStep maps r mapping).bin1CountValidation = r.bin1CountValidation ∧
      (crossStep maps r mapping).lotSummaryValidation = r.lotSummaryValidation ∧
      (crossStep maps r mapping).individualWaferValidation = r.individualWaferValidation := by
  unfold crossStep
  cases hf : maps.find? (fun w => w.header.waferId = mapping.waferId) with
  | none =>
    refine ⟨[⟨false, .error, .crossMissingMsg mapping.waferId, none⟩], ?_⟩
    simp [maxSeverity_cons, maxSeverity, sevStatus, statusMax_fail_right,
      statusMax_pass_right, isYieldVarianceResult]
  | some w =>
    by_cases hd : 0 < |w.header.passDie - mapping.bin1Count|
    · by_cases hv : 10 < |w.header.passDie - mapping.bin1Count|
      · refine ⟨[⟨false, .error, .crossBin1Msg mapping.waferId,
          some (.crossBin1Detail mapping.bin1Count w.header.passDie)⟩], ?_⟩
        by_cases hnf : r.overallStatus ≠ .fail
        · simp [hd, hv, hnf, maxSeverity_cons, maxSeverity, sevStatus,
            statusMax_fail_right, statusMax_pass_right, isYieldVarianceResult]
        · push_neg at hnf
          simp [hd, hv, hnf, maxSeverity_cons, maxSeverity, sevStatus,
            statusMax_fail_right, statusMax_pass_right, isYieldVarianceResult, statusMax]
      · refine ⟨[⟨false, .warning, .crossBin1Msg mapping.waferId,
          some (.crossBin1Detail mapping.bin1Count w.header.passDie)⟩], ?_⟩
        by_cases hp : r.overallStatus = .pass
        · simp [hd, hv, hp, maxSeverity_cons, maxSeverity, sevStatus,
            statusMax_pass_right, isYieldVarianceResult, statusMax]
        · simp only [hd, hv, hp]
          simp [hd, hv, hp, maxSeverity_cons, maxSeverity, sevStatus,
            statusMax_pass_right, isYieldVarianceResult]
          cases hr : r.overallStatus <;> simp_all [statusMax]
    · refine ⟨[], ?_⟩
      simp [hd, maxSeverity, statusMax_pass_right]

theorem crossFold_spec (maps : List VWaferMap) :
    ∀ (ms : List VFarMapping) (r : DataIntegrityReport),
      ∃ new : List ValidationResult,
        (ms.foldl (crossStep maps) r).crossFileValidation =
            r.crossFileValidation ++ new ∧
          (ms.foldl (crossStep maps) r).overallStatus =
            statusMax r.overallStatus (maxSeverity new) ∧
          (∀ v ∈ new, isYieldVarianceResult v = false) ∧
          (ms.foldl (crossStep maps) r).waferCountValidation = r.waferCountValidation ∧
          (ms.foldl (crossStep maps) r).bin1CountValidation = r.bin1CountValidation ∧
          (ms.foldl (crossStep maps) r).lotSummaryValidation = r.lotSummaryValidation ∧
          (ms.foldl (crossStep maps) r).individualWaferValidation =
            r.individualWaferValidation := by
  intro ms
  induction ms with
  | nil =>
    intro r
    exact ⟨[], by simp [maxSeverity, statusMax_pass_right]⟩
  | cons m t ih =>
    intro r
    obtain ⟨n1, hc1, hs1, hy1, hw1, hb1, hl1, hi1⟩ := crossStep_spec maps r m
    obtain ⟨n2, hc2, hs2, hy2, hw2, hb2, hl2, hi2⟩ := ih (crossStep maps r m)
    refine ⟨n1 ++ n2, ?_, ?_, ?_, ?_, ?_, ?_, ?_⟩
    · show (t.foldl (crossStep maps) (crossStep maps r m)).crossFileValidation = _
      rw [hc2, hc1, List.append_assoc]
    · show (t.foldl (crossStep maps) (crossStep maps r m)).overallStatus = _
      rw [hs2, hs1, maxSeverity_append, statusMax_assoc]
    · intro v hv
      rcases List.mem_append.mp hv with h | h
      exacts [hy1 v h, hy2 v h]
    · show (t.foldl (crossStep maps) (crossStep maps r m)).waferCountValidation = _
      rw [hw2, hw1]
    · show (t.foldl (crossStep maps) (crossStep maps r m)).bin1CountValidation = _
      rw [hb2, hb1]
    · show (t.foldl (crossStep maps) (crossStep maps r m)).lotSummaryValidation = _
      rw [hl2, hl1]
    · show (t.foldl (crossStep maps) (crossStep maps r m)).individualWaferValidation = _
      rw [hi2, hi1]

theorem crossCheck_spec (maps : List VWaferMap) (far : Option VFarSummary)
    (r : DataIntegrityReport) :
    ∃ new : List ValidationResult,
      (crossCheck maps far r).crossFileValidation = r.crossFileValidation ++ new ∧
        (crossCheck maps far r).overallStatus =
          statusMax r.overallStatus (maxSeverity new) ∧
        (∀ v ∈ new, isYieldVarianceResult v = false) ∧
        (crossCheck maps far r).waferCountValidation = r.waferCountValidation ∧
        (crossCheck maps far r).bin1CountValidation = r.bin1CountValidation ∧
        (crossCheck maps far r).lotSummaryValidation = r.lotSummaryValidation ∧
        (crossCheck maps far r).individualWaferValidation =
          r.individualWaferValidation := by
  unfold crossCheck
  cases far with
  | none => exact ⟨[], by simp [maxSeverity, statusMax_pass_right]⟩
  | some f =>
    by_cases hn : 0 < maps.length
    · simpa [hn] using crossFold_spec maps f.waferMappings r
    · exact ⟨[], by simp [hn, maxSeverity, statusMax_pass_right]⟩

theorem indivStep_spec (r : DataIntegrityReport) (w : VWaferMap) :
    ∃ new : List ValidationResult,
      (indivStep r w).individualWaferValidation =
          r.individualWaferValidation ++ new ∧
        (indivStep r w).overallStatus =
          statusMax r.overallStatus
            (maxSeverity (new.filter (fun v => !isYieldVarianceResult v))) ∧
        (indivStep r w).waferCountValidation = r.waferCountValidation ∧
        (indivStep r w).bin1CountValidation = r.bin1CountValidation ∧
        (indivStep r w).lotSummaryValidation = r.lotSummaryValidation ∧
        (indivStep r w).crossFileValidation = r.crossFileValidation := by
  unfold indivStep
  try dsimp only
  by_cases hyv : (1/10 : ℚ) <
    |(if 0 < w.header.totalTestDie then
        (w.header.passDie : ℚ) / (w.header.totalTestDie : ℚ) * 100
      else 0) - w.header.yield|
  · rw [if_pos hyv]
    try dsimp only
    by_cases hex : (995/10 : ℚ) < w.header.yield
    · rw [if_pos hex]
      refine ⟨[⟨false, if (1 : ℚ) <
          |(if 0 < w.header.totalTestDie then
              (w.header.passDie : ℚ) / (w.header.totalTestDie : ℚ) * 100
            else 0) - w.header.yield| then .warning else .info,
        .yieldVarianceMsg w.header.waferId,
        some (.yieldVarianceDetail w.header.yield
          (if 0 < w.header.totalTestDie then
            (w.header.passDie : ℚ) / (w.header.totalTestDie : ℚ) * 100
          else 0))⟩,
        ⟨true, .info, .excellentYieldMsg w.header.waferId w.header.yield, none⟩], ?_, ?_, rfl, rfl, rfl, rfl⟩
      · simp
      · simp [isYieldVarianceResult, maxSeverity_cons, maxSeverity, sevStatus,
          statusMax_pass_right]
    · rw [if_neg hex]
      by_cases hlow : w.header.yield < 70
      · rw [if_pos hlow]
        try dsimp only
        by_cases hp : r.overallStatus = VStatus.pass
        · rw [if_pos hp]
          refine ⟨[⟨false, if (1 : ℚ) <
          |(if 0 < w.header.totalTestDie then
              (w.header.passDie : ℚ) / (w.header.totalTestDie : ℚ) * 100
            else 0) - w.header.yield| then .warning else .info,
        .yieldVarianceMsg w.header.waferId,
        some (.yieldVarianceDetail w.header.yield
          (if 0 < w.header.totalTestDie then
            (w.header.passDie : ℚ) / (w.header.totalTestDie : ℚ) * 100
          else 0))⟩,
            ⟨false, .warning, .lowYieldMsg w.header.waferId w.header.yield, none⟩], ?_, ?_, rfl, rfl, rfl, rfl⟩
          · simp
          · rw [hp]
            simp [isYieldVarianceResult, maxSeverity_cons, maxSeverity, sevStatus,
              statusMax]
        · rw [if_neg hp]
          refine ⟨[⟨false, if (1 : ℚ) <
          |(if 0 < w.header.totalTestDie then
              (w.header.passDie : ℚ) / (w.header.totalTestDie : ℚ) * 100
            else 0) - w.header.yield| then .warning else .info,
        .yieldVarianceMsg w.header.waferId,
        some (.yieldVarianceDetail w.header.yield
          (if 0 < w.header.totalTestDie then
            (w.header.passDie : ℚ) / (w.header.totalTestDie : ℚ) * 100
          else 0))⟩,
            ⟨false, .warning, .lowYieldMsg w.header.waferId w.header.yield, none⟩], ?_, ?_, rfl, rfl, rfl, rfl⟩
          · simp
          · simp [isYieldVarianceResult, maxSeverity_cons, maxSeverity, sevStatus]
            cases hr : r.overallStatus <;> simp_all [statusMax]
      · rw [if_neg hlow]
        refine ⟨[⟨false, if (1 : ℚ) <
          |(if 0 < w.header.totalTestDie then
              (w.header.passDie : ℚ) / (w.header.totalTestDie : ℚ) * 100
            else 0) - w.header.yield| then .warning else .info,
        .yieldVarianceMsg w.header.waferId,
        some (.yieldVarianceDetail w.header.yield
          (if 0 < w.header.totalTestDie then
            (w.header.passDie : ℚ) / (w.header.totalTestDie : ℚ) * 100
          else 0))⟩], rfl, ?_, rfl, rfl, rfl, rfl⟩
        simp [isYieldVarianceResult, maxSeverity, statusMax_pass_right]
  · rw [if_neg hyv]
    try dsimp only
    by_cases hex : (995/10 : ℚ) < w.header.yield
    · rw [if_pos hex]
      refine ⟨[⟨true, .info, .excellentYieldMsg w.header.waferId w.header.yield, none⟩], rfl, ?_, rfl, rfl, rfl, rfl⟩
      simp [isYieldVarianceResult, maxSeverity_cons, maxSeverity, sevStatus,
        statusMax_pass_right]
    · rw [if_neg hex]
      by_cases hlow : w.header.yield < 70
      · rw [if_pos hlow]
        try dsimp only
        by_cases hp : r.overallStatus = VStatus.pass
        · rw [if_pos hp]
          refine ⟨[⟨false, .warning, .lowYieldMsg w.header.waferId w.header.yield, none⟩], rfl, ?_, rfl, rfl, rfl, rfl⟩
          rw [hp]
          simp [isYieldVarianceResult, maxSeverity_cons, maxSeverity, sevStatus,
            statusMax]
        · rw [if_neg hp]
          refine ⟨[⟨false, .warning, .lowYieldMsg w.header.waferId w.header.yield, none⟩], rfl, ?_, rfl, rfl, rfl, rfl⟩
          simp [isYieldVarianceResult, maxSeverity_cons, maxSeverity, sevStatus]
          cases hr : r.overallStatus <;> simp_all [statusMax]
      · rw [if_neg hlow]
        exact ⟨[], by simp, by simp [maxSeverity, statusMax_pass_right], rfl, rfl, rfl, rfl⟩

theorem indivFold_spec :
    ∀ (ws : List VWaferMap) (r : DataIntegrityReport),
      ∃ new : List ValidationResult,
        (ws.foldl indivStep r).individualWaferValidation =
            r.individualWaferValidation ++ new ∧
          (ws.foldl indivStep r).overallStatus =
            statusMax r.overallStatus
              (maxSeverity (new.filter (fun v => !isYieldVarianceResult v))) ∧
          (ws.foldl indivStep r).waferCountValidation = r.waferCountValidation ∧
          (ws.foldl indivStep r).bin1CountValidation = r.bin1CountValidation ∧
          (ws.foldl indivStep r).lotSummaryValidation = r.lotSummaryValidation ∧
          (ws.foldl indivStep r).crossFileValidation = r.crossFileValidation := by
  intro ws
  induction ws with
  | nil =>
    intro r
    exact ⟨[], by simp [maxSeverity, statusMax_pass_right]⟩
  | cons w t ih =>
    intro r
    obtain ⟨n1, hc1, hs1, hw1, hb1, hl1, hx1⟩ := indivStep_spec r w
    obtain ⟨n2, hc2, hs2, hw2, hb2, hl2, hx2⟩ := ih (indivStep r w)
    refine ⟨n1 ++ n2, ?_, ?_, ?_, ?_, ?_, ?_⟩
    · show (t.foldl indivStep (indivStep r w)).individualWaferValidation = _
      rw [hc2, hc1, List.append_assoc]
    · show (t.foldl indivStep (indivStep r w)).overallStatus = _
      rw [hs2, hs1, List.filter_append, maxSeverity_append, statusMax_assoc]
    · show (t.foldl indivStep (indivStep r w)).waferCountValidation = _
      rw [hw2, hw1]
    · show (t.foldl indivStep (indivStep r w)).bin1CountValidation = _
      rw [hb2, hb1]
    · show (t.foldl indivStep (indivStep r w)).lotSummaryValidation = _
      rw [hl2, hl1]
    · show (t.foldl indivStep (indivStep r w)).crossFileValidation = _
      rw [hx2, hx1]

theorem indivCheck_spec (maps : List VWaferMap) (r : DataIntegrityReport) :
    ∃ new : List ValidationResult,
      (indivCheck maps r).individualWaferValidation =
          r.individualWaferValidation ++ new ∧
        (indivCheck maps r).overallStatus =
          statusMax r.overallStatus
            (maxSeverity (new.filter (fun v => !isYieldVarianceResult v))) ∧
        (indivCheck maps r).waferCountValidation = r.waferCountValidation ∧
        (indivCheck maps r).bin1CountValidation = r.bin1CountValidation ∧
        (indivCheck maps r).lotSummaryValidation = r.lotSummaryValidation ∧
        (indivCheck maps r).crossFileValidation = r.crossFileValidation :=
  indivFold_spec maps r

theorem generateIntegrityReport_status (maps : List VWaferMap)
    (far : Option VFarSummary) (lot : Option VLotSummary) :
    (generateIntegrityReport maps far lot).overallStatus =
      (indivCheck maps (crossCheck maps far (lotCheck maps lot (bin1Check maps far
        (waferCountCheck maps far initialReport))))).overallStatus := by
  unfold generateIntegrityReport
  dsimp only
  split <;> rfl

theorem generateIntegrityReport_results (maps : List VWaferMap)
    (far : Option VFarSummary) (lot : Option VLotSummary) :
    allResults (generateIntegrityReport maps far lot) =
      allResults (indivCheck maps (crossCheck maps far (lotCheck maps lot (bin1Check maps far
        (waferCountCheck maps far initialReport))))) := by
  unfold generateIntegrityReport
  dsimp only
  split <;> rfl

/--
C2 (amended): after running all checks, `overallStatus` equals the maximum
severity over all individual `ValidationResult` entries EXCEPT the per-wafer
yield-variance entries (mapping `error → fail`, `warning → warning`,
`info → pass`): the yield-variance check pushes its result without ever
raising `overallStatus`, so those entries are excluded; every other check's
entries are reflected exactly.  Moreover the status is never downgraded once
raised: each check stage only moves it upward (second group of conjuncts,
one per stage of the evaluation order).
-/
theorem validator_overall_status (maps : List VWaferMap) (far : Option VFarSummary)
    (lot : Option VLotSummary) :
    (generateIntegrityReport maps far lot).overallStatus =
        reportIncludedMax (generateIntegrityReport maps far lot) ∧
      statusLe initialReport.overallStatus
        (waferCountCheck maps far initialReport).overallStatus ∧
      statusLe (waferCountCheck maps far initialReport).overallStatus
        (bin1Check maps far (waferCountCheck maps far initialReport)).overallStatus ∧
      statusLe (bin1Check maps far (waferCountCheck maps far initialReport)).overallStatus
        (lotCheck maps lot (bin1Check maps far
          (waferCountCheck maps far initialReport))).overallStatus ∧
      statusLe (lotCheck maps lot (bin1Check maps far
          (waferCountCheck maps far initialReport))).overallStatus
        (crossCheck maps far (lotCheck maps lot (bin1Check maps far
          (waferCountCheck maps far initialReport)))).overallStatus ∧
      statusLe (crossCheck maps far (lotCheck maps lot (bin1Check maps far
          (waferCountCheck maps far initialReport)))).overallStatus
        (indivCheck maps (crossCheck maps far (lotCheck maps lot (bin1Check maps far
          (waferCountCheck maps far initialReport))))).overallStatus ∧
      (generateIntegrityReport maps far lot).overallStatus =
        (indivCheck maps (crossCheck maps far (lotCheck maps lot (bin1Check maps far
          (waferCountCheck maps far initialReport))))).overallStatus := by
  have hstat := generateIntegrityReport_status maps far lot
  have hres := generateIntegrityReport_results maps far lot
  obtain ⟨e1s, e1b, e1l, e1c, e1i, e1y⟩ :=
    waferCountCheck_spec maps far initialReport rfl
  obtain ⟨e2s, e2w, e2l, e2c, e2i, e2y⟩ :=
    bin1Check_spec maps far (waferCountCheck maps far initialReport)
      (by rw [e1b]; rfl)
  obtain ⟨e3s, e3w, e3b, e3c, e3i, e3y⟩ :=
    lotCheck_spec maps lot (bin1Check maps far (waferCountCheck maps far initialReport))
      (by rw [e2l, e1l]; rfl)
  obtain ⟨nc, e4c, e4s, e4y, e4w, e4b, e4l, e4i⟩ :=
    crossCheck_spec maps far (lotCheck maps lot (bin1Check maps far
      (waferCountCheck maps far initialReport)))
  obtain ⟨ni, e5i, e5s, e5w, e5b, e5l, e5c⟩ :=
    indivCheck_spec maps (crossCheck maps far (lotCheck maps lot (bin1Check maps far
      (waferCountCheck maps far initialReport))))
  set r1 := waferCountCheck maps far initialReport with hr1
  set r2 := bin1Check maps far r1 with hr2
  set r3 := lotCheck maps lot r2 with hr3
  set r4 := crossCheck maps far r3 with hr4
  set r5 := indivCheck maps r4 with hr5
  have hcross5 : r5.crossFileValidation = nc := by
    rw [e5c, e4c, e3c, e2c, e1c]
    rfl
  have hindiv5 : r5.individualWaferValidation = ni := by
    rw [e5i, e4i, e3i, e2i, e1i]
    rfl
  have hw5 : r5.waferCountValidation = r1.waferCountValidation := by
    rw [e5w, e4w, e3w, e2w]
  have hb5 : r5.bin1CountValidation = r2.bin1CountValidation := by
    rw [e5b, e4b, e3b]
  have hl5 : r5.lotSummaryValidation = r3.lotSummaryValidation := by
    rw [e5l, e4l]
  refine ⟨?_, ?_, ?_, ?_, ?_, ?_, hstat⟩
  · rw [hstat]
    unfold reportIncludedMax
    rw [hres]
    show _ = maxSeverity ((r5.waferCountValidation :: r5.bin1CountValidation ::
      r5.lotSummaryValidation :: (r5.crossFileValidation ++
        r5.individualWaferValidation)).filter (fun v => !isYieldVarianceResult v))
    rw [hcross5, hindiv5, hw5, hb5, hl5]
    rw [List.filter_cons_of_pos (by rw [e1y]; rfl),
        List.filter_cons_of_pos (by rw [e2y]; rfl),
        List.filter_cons_of_pos (by rw [e3y]; rfl)]
    rw [List.filter_append]
    rw [List.filter_eq_self.mpr (fun v hv => by rw [e4y v hv]; rfl)]
    rw [maxSeverity_cons, maxSeverity_cons, maxSeverity_cons, maxSeverity_append]
    rw [e5s, e4s, e3s, e2s, e1s]
    show statusMax (statusMax (statusMax (statusMax (statusMax VStatus.pass _) _) _) _) _ = _
    rw [statusMax_pass_left, statusMax_assoc, statusMax_assoc, statusMax_assoc]
  · rw [e1s]
    exact statusLe_statusMax_left _ _
  · rw [e2s]
    exact statusLe_statusMax_left _ _
  · rw [e3s]
    exact statusLe_statusMax_left _ _
  · rw [e4s]
    exact statusLe_statusMax_left _ _
  · rw [e5s]
    exact statusLe_statusMax_left _ _

/--
C2 counterexample: one wafer map declaring yield 90% while its counts give
80% (passDie 80 of totalTestDie 100) triggers a warning-severity
yield-variance entry, yet `overallStatus` stays `pass` — the claimed
equality with the maximum severity over ALL entries fails.
-/
theorem validator_status_counterexample :
    (generateIntegrityReport [⟨⟨"W1", 80, 100, 90⟩⟩] none none).overallStatus =
        VStatus.pass ∧
      maxSeverity (allResults (generateIntegrityReport [⟨⟨"W1", 80, 100, 90⟩⟩]
        none none)) = VStatus.warning := by
  with_unfolding_all decide

/--
C9 counterexample: a 48-byte buffer holding a PRR record whose part-id
length byte (200) makes `readString` read past the buffer end, followed by a
perfectly parseable PRR record.  The thrown read is caught OUTSIDE the
record loop, so parsing returns with `parts = []` — the second record is
never interpreted, refuting the claim that only the offending record is
skipped and the stream continues.
-/
theorem v2_abort_counterexample :
    (V2.parseStdfFile
        [20, 0, 2, 20, 0, 0, 0, 0, 0, 0, 0, 0, 0, 0, 0, 0, 0, 0, 0, 0, 0,
         200, 0, 0, 20, 0, 2, 20, 0, 0, 0, 0, 0, 0, 0, 0, 0, 0, 0, 0, 0, 0,
         0, 0, 0, 0, 0, 0]).parts = [] ∧
      (V2.parsePartResult
        [20, 0, 2, 20, 0, 0, 0, 0, 0, 0, 0, 0, 0, 0, 0, 0, 0, 0, 0, 0, 0,
         200, 0, 0, 20, 0, 2, 20, 0, 0, 0, 0, 0, 0, 0, 0, 0, 0, 0, 0, 0, 0,
         0, 0, 0, 0, 0, 0] 28).isSome = true := by
  constructor
  · decide
  · decide

/--
C9 (amended): field extraction in the second parser is not bounds-checked
against the record payload (only against the whole buffer), and the
`try`/`catch` wraps the WHOLE record loop ("Continue with partial data"):
when interpreting the record at the cursor throws — an out-of-bounds buffer
read — the loop returns immediately with the state accumulated so far, so
every remaining record in the stream is abandoned, not just the offending
one.
-/
theorem v2_interpreter_throw_aborts_stream (buf : List ℕ) (fuel : ℕ)
    (s : V2.LoopState) (hguard : s.offset + 4 < buf.length)
    (hthrow : V2.v2Iter buf s = .thrown s) :
    V2.v2Loop buf (fuel + 1) s = s := by
  unfold V2.v2Loop
  rw [if_pos hguard, hthrow]

/-- Witness for C9 on the two-record buffer of the counterexample: the loop
started at the corrupt record returns the initial state unchanged. -/
theorem v2_interpreter_throw_aborts_stream_witness :
    V2.v2Loop
        [20, 0, 2, 20, 0, 0, 0, 0, 0, 0, 0, 0, 0, 0, 0, 0, 0, 0, 0, 0, 0,
         200, 0, 0, 20, 0, 2, 20, 0, 0, 0, 0, 0, 0, 0, 0, 0, 0, 0, 0, 0, 0,
         0, 0, 0, 0, 0, 0] (47 + 1)
        ⟨0, ⟨none, none, none, none, none⟩, [], [], [], []⟩ =
      ⟨0, ⟨none, none, none, none, none⟩, [], [], [], []⟩ :=
  v2_interpreter_throw_aborts_stream _ 47 _ (by decide) (by decide)
